import Mathlib

/- Shallow embedding of the automaton execution engine of the machine.js
repository.  The repository ships two variants of the DFA engine:

  * `DFA1` embeds `Machine.DFA` from `src/src/DFA.js` (no epsilon handling in
    `step`, inline end-of-tape halting check, no post-transition re-check);
  * `DFA2` embeds `Machine.DFA` from `src/unnamed/part_000` (epsilon-aware,
    with a dedicated `halt` method invoked before and after each transition);
  * `DPDA` embeds `Machine.DPDA` from `src/src/DFA.js`.

Collaborators whose sources are not included in the repository snapshot
(`Machine.Alphabet`, `Machine.BaseMachine`, `Machine.TransitionFunction`,
`Machine.Tape`, `Machine.Stack`) are modelled from the spec, as indicated in
each doc comment.  Observer callbacks are modelled as an explicit event trace
returned by each operation. -/

/-- Modelled from the spec: the reserved epsilon sentinel
`Machine.Alphabet.EPSILON_STRING` of the Alphabet collaborator (spec §2, §3),
whose source file is not part of the snapshot.  Its concrete value is opaque
to the engine; only its distinguishedness matters. -/
def EPSILON_STRING : String := "ε"

/-- Modelled from the spec: the `Machine.Alphabet` collaborator interface
(spec §6): membership and compatibility queries plus a designated blank. -/
structure Alphabet where
  contains : String → Bool
  isCompatibleWith : String → Bool
  blank : String

/-- Modelled from the spec: a `Machine.State` as seen by the engine — a unique
label plus the accepting flag (spec §3, §6). -/
structure State where
  label : String
  isAccepting : Bool
deriving DecidableEq

/-- A DFA transition condition (`Machine.Condition` with no stack element):
a state plus an input character (spec §3). -/
structure ConditionD where
  state : State
  character : String
deriving DecidableEq

/-- A DFA transition command (`Machine.Command` as built by
`DFA.addTransitionByStatesAndCharacter`): the destination state. -/
structure CommandD where
  state : State
deriving DecidableEq

/-- The `Machine.Command` stack-action field: absent or `STACK_CHANGE`. -/
inductive CommandAction where
  | noAction : CommandAction
  | stackChange : CommandAction
deriving DecidableEq

/-- A DPDA transition condition (`Machine.Condition`): state, input character
and required top-of-stack symbol. -/
structure ConditionP where
  state : State
  character : String
  stackElement : String
deriving DecidableEq

/-- A DPDA transition command (`Machine.Command` as built by
`DPDA.addTransitionByStatesAndCharacter`): destination state, stack action and
the string argument to push. -/
structure CommandP where
  state : State
  action : CommandAction
  argument : String
deriving DecidableEq

/-- Modelled from the spec: `Machine.TransitionFunction.getCommand` for DFA
conditions — exact-match lookup of the registered command (spec §4.1). -/
def getCommandD (tf : List (ConditionD × CommandD)) (c : ConditionD) : Option CommandD :=
  match tf with
  | [] => none
  | p :: rest => if p.1 = c then some p.2 else getCommandD rest c

/-- Modelled from the spec: `Machine.TransitionFunction.getEpsilonTransitionCondition`
for DFA conditions — the registered condition of the given state whose input
symbol is epsilon, when one exists (at most one per state, spec §4.1). -/
def getEpsilonTransitionConditionD (tf : List (ConditionD × CommandD)) (s : State) :
    Option ConditionD :=
  match tf with
  | [] => none
  | p :: rest =>
      if p.1.state = s ∧ p.1.character = EPSILON_STRING then some p.1
      else getEpsilonTransitionConditionD rest s

/-- Modelled from the spec: `Machine.TransitionFunction.hasEpsilonTransition`
for DFA conditions (spec §4.1). -/
def hasEpsilonTransitionD (tf : List (ConditionD × CommandD)) (s : State) : Bool :=
  (getEpsilonTransitionConditionD tf s).isSome

/-- Modelled from the spec: `Machine.TransitionFunction.getCommand` for DPDA
conditions (spec §4.1). -/
def getCommandP (tf : List (ConditionP × CommandP)) (c : ConditionP) : Option CommandP :=
  match tf with
  | [] => none
  | p :: rest => if p.1 = c then some p.2 else getCommandP rest c

/-- Modelled from the spec: `Machine.TransitionFunction.getEpsilonTransitionCondition`
for DPDA conditions (spec §4.1). -/
def getEpsilonTransitionConditionP (tf : List (ConditionP × CommandP)) (s : State) :
    Option ConditionP :=
  match tf with
  | [] => none
  | p :: rest =>
      if p.1.state = s ∧ p.1.character = EPSILON_STRING then some p.1
      else getEpsilonTransitionConditionP rest s

/-- Modelled from the spec: `Machine.TransitionFunction.hasEpsilonTransition`
for DPDA conditions (spec §4.1). -/
def hasEpsilonTransitionP (tf : List (ConditionP × CommandP)) (s : State) : Bool :=
  (getEpsilonTransitionConditionP tf s).isSome

/-- Modelled from the spec: `Machine.Tape.charAt` (spec §4.4).  The engine only
calls it at in-bounds positions (the halting predicate prevents out-of-bounds
reads), so the default value is unobservable by the engine. -/
def Tape.charAt (t : List String) (i : Nat) : String :=
  t.getD i ""

/-- Modelled from the spec: `Machine.Stack.peek` (spec §4.5) — the topmost
symbol, or the epsilon sentinel when the stack is empty (the form used by the
DPDA halting predicate). -/
def Stack.peek (s : List String) : String :=
  s.headD EPSILON_STRING

/-- Callback events fired by the DFA engines: `onAccept`, `onReject`,
`onHalt`, `onStep` and `onPointerChange`, with the arguments the source
passes to each callback. -/
inductive DEvent where
  | accept : State → Nat → Nat → DEvent
  | reject : State → Nat → Nat → DEvent
  | halt : State → Nat → Nat → DEvent
  | stepE : ConditionD → CommandD → Nat → Nat → DEvent
  | pointerChange : Nat → DEvent
deriving DecidableEq

/-- Callback events fired by the DPDA engine: the DFA events plus
`onStackPop` (payload `none` when popping an empty stack) and `onStackPush`. -/
inductive PEvent where
  | accept : State → Nat → Nat → PEvent
  | reject : State → Nat → Nat → PEvent
  | halt : State → Nat → Nat → PEvent
  | stepE : ConditionP → CommandP → Nat → Nat → PEvent
  | pointerChange : Nat → PEvent
  | stackPopE : Option String → PEvent
  | stackPushE : String → PEvent
deriving DecidableEq

/-- The `Machine.DFA` configuration of `src/src/DFA.js`.  The base-machine
fields (`currentState`, `initialState`, `stepCount`, `isHalted`,
`transitionFunction`) are modelled from the spec, `Machine.BaseMachine` not
being part of the snapshot; the remaining fields come from `DFA._init`. -/
structure DFA1 where
  transitionFunction : List (ConditionD × CommandD)
  initialState : State
  currentState : State
  stepCount : Nat
  isHalted : Bool
  isAccepted : Bool
  tape : List String
  pointerPosition : Nat
deriving DecidableEq

/-- Construction of a `src/src/DFA.js` DFA (`Machine.DFA` constructor plus the
spec-modelled `BaseMachine._init`): empty tape, cursor 0, not halted, not
accepted, step count 0, current state the designated initial state. -/
def DFA1.mk0 (initialState : State) : DFA1 :=
  { transitionFunction := [], initialState := initialState,
    currentState := initialState, stepCount := 0, isHalted := false,
    isAccepted := false, tape := [], pointerPosition := 0 }

/-- One call of `Machine.DFA.prototype.step` from `src/src/DFA.js`
(lines 204-269): the new configuration, the fired callback events in order,
and the returned halted flag. -/
def DFA1.step (m : DFA1) : DFA1 × List DEvent × Bool :=
  if m.isHalted = true then (m, [], true)
  else
    let m1 : DFA1 := { m with stepCount := m.stepCount + 1 }
    if m1.pointerPosition ≥ m1.tape.length then
      if m1.currentState.isAccepting = true then
        ({ m1 with isHalted := true, isAccepted := true },
         [DEvent.accept m1.currentState m1.stepCount m1.pointerPosition,
          DEvent.halt m1.currentState m1.stepCount m1.pointerPosition], true)
      else
        ({ m1 with isHalted := true, isAccepted := false },
         [DEvent.reject m1.currentState m1.stepCount m1.pointerPosition,
          DEvent.halt m1.currentState m1.stepCount m1.pointerPosition], true)
    else
      let currentCharacter := Tape.charAt m1.tape m1.pointerPosition
      let condition : ConditionD := { state := m1.currentState, character := currentCharacter }
      match getCommandD m1.transitionFunction condition with
      | none =>
          ({ m1 with isHalted := true, isAccepted := false },
           [DEvent.reject m1.currentState m1.stepCount m1.pointerPosition,
            DEvent.halt m1.currentState m1.stepCount m1.pointerPosition], true)
      | some command =>
          ({ m1 with pointerPosition := m1.pointerPosition + 1,
                     currentState := command.state },
           [DEvent.pointerChange (m1.pointerPosition + 1),
            DEvent.stepE condition command m1.stepCount (m1.pointerPosition + 1)], false)

/-- `Machine.DFA.prototype.run` from `src/src/DFA.js` (lines 278-287). -/
def DFA1.run (m : DFA1) (maxSteps : Nat) : DFA1 × List DEvent × Bool :=
  match maxSteps with
  | 0 => (m, [], false)
  | Nat.succ n =>
      let r := DFA1.step m
      if r.2.2 = true then (r.1, r.2.1, true)
      else
        let r2 := DFA1.run r.1 n
        (r2.1, r.2.1 ++ r2.2.1, r2.2.2)

/-- `Machine.DFA.prototype.setInputString` from `src/src/DFA.js`
(lines 131-135): rebinds the tape and sends the cursor to 0 (firing
`onPointerChange`). -/
def DFA1.setInputString (m : DFA1) (input : List String) : DFA1 × List DEvent :=
  ({ m with tape := input, pointerPosition := 0 }, [DEvent.pointerChange 0])

/-- `Machine.DFA.prototype.reset` from `src/src/DFA.js` (lines 142-146); the
`BaseMachine.reset` part (initial state, step count, halted flag) is modelled
from the spec (§3 lifecycle). -/
def DFA1.reset (m : DFA1) : DFA1 × List DEvent :=
  ({ m with currentState := m.initialState, stepCount := 0, isHalted := false,
            pointerPosition := 0, isAccepted := false },
   [DEvent.pointerChange 0])

/-- The active condition `src/src/DFA.js`'s `DFA.step` builds when it attempts
a transition (lines 234-241): always the current tape character, with no
epsilon preference. -/
def DFA1.activeCondition (m : DFA1) : ConditionD :=
  { state := m.currentState, character := Tape.charAt m.tape m.pointerPosition }

/-- The `Machine.DFA` configuration of `src/unnamed/part_000` (the
epsilon-aware DFA variant).  Base-machine fields as in `DFA1`; the
`allowEpsilonTransitions` flag from `_init` only guards transition addition. -/
structure DFA2 where
  transitionFunction : List (ConditionD × CommandD)
  initialState : State
  currentState : State
  stepCount : Nat
  isHalted : Bool
  isAccepted : Bool
  tape : List String
  pointerPosition : Nat
  allowEpsilonTransitions : Bool
deriving DecidableEq

/-- Construction of a `src/unnamed/part_000` DFA (`_init`, with
`allowEpsilonTransitions` defaulting to true). -/
def DFA2.mk0 (initialState : State) : DFA2 :=
  { transitionFunction := [], initialState := initialState,
    currentState := initialState, stepCount := 0, isHalted := false,
    isAccepted := false, tape := [], pointerPosition := 0,
    allowEpsilonTransitions := true }

/-- `Machine.DFA.prototype.halt` from `src/unnamed/part_000` (lines 238-260):
the halting predicate (end of tape and no epsilon transition for the current
state), which on firing marks the machine halted, decides acceptance by the
accepting flag of the current state, and fires the accept/reject and halt
callbacks. -/
def DFA2.halt (m : DFA2) : DFA2 × List DEvent × Bool :=
  if m.pointerPosition ≥ m.tape.length ∧
      hasEpsilonTransitionD m.transitionFunction m.currentState = false then
    if m.currentState.isAccepting = true then
      ({ m with isHalted := true, isAccepted := true },
       [DEvent.accept m.currentState m.stepCount m.pointerPosition,
        DEvent.halt m.currentState m.stepCount m.pointerPosition], true)
    else
      ({ m with isHalted := true, isAccepted := false },
       [DEvent.reject m.currentState m.stepCount m.pointerPosition,
        DEvent.halt m.currentState m.stepCount m.pointerPosition], true)
  else (m, [], false)

/-- The post-transition halting re-check at the end of `src/unnamed/part_000`'s
`DFA.step` (lines 333-340): run `halt` on the configuration after the state
change and return accordingly. -/
def DFA2.checkHaltAfter (m3 : DFA2) (evs2 : List DEvent) : DFA2 × List DEvent × Bool :=
  if (DFA2.halt m3).2.2 = true then
    ((DFA2.halt m3).1, evs2 ++ (DFA2.halt m3).2.1, true)
  else (m3, evs2, false)

/-- The tail of `src/unnamed/part_000`'s `DFA.step` after the active condition
has been chosen (lines 306-341): command lookup, rejection on a missing
command, conditional cursor advance, state change, the `onStep` callback, and
the post-transition halting re-check. -/
def DFA2.stepWith (m : DFA2) (currentCharacter : String) (condition : ConditionD) :
    DFA2 × List DEvent × Bool :=
  match getCommandD m.transitionFunction condition with
  | none =>
      ({ m with isHalted := true, isAccepted := false },
       [DEvent.reject m.currentState m.stepCount m.pointerPosition,
        DEvent.halt m.currentState m.stepCount m.pointerPosition], true)
  | some command =>
      if currentCharacter = EPSILON_STRING then
        DFA2.checkHaltAfter { m with currentState := command.state }
          [DEvent.stepE condition command m.stepCount m.pointerPosition]
      else
        DFA2.checkHaltAfter
          { m with pointerPosition := m.pointerPosition + 1,
                   currentState := command.state }
          [DEvent.pointerChange (m.pointerPosition + 1),
           DEvent.stepE condition command m.stepCount (m.pointerPosition + 1)]

/-- One call of `Machine.DFA.prototype.step` from `src/unnamed/part_000`
(lines 267-342): idempotent return when halted, step-count increment,
pre-transition halting check, epsilon-preferring choice of the active
condition, then `DFA2.stepWith`. -/
def DFA2.step (m : DFA2) : DFA2 × List DEvent × Bool :=
  if m.isHalted = true then (m, [], true)
  else
    let m1 : DFA2 := { m with stepCount := m.stepCount + 1 }
    let h1 := DFA2.halt m1
    if h1.2.2 = true then (h1.1, h1.2.1, true)
    else
      match getEpsilonTransitionConditionD m1.transitionFunction m1.currentState with
      | some condition => DFA2.stepWith m1 EPSILON_STRING condition
      | none =>
          let currentCharacter := Tape.charAt m1.tape m1.pointerPosition
          DFA2.stepWith m1 currentCharacter
            { state := m1.currentState, character := currentCharacter }

/-- `Machine.DFA.prototype.run` from `src/unnamed/part_000` (lines 351-360). -/
def DFA2.run (m : DFA2) (maxSteps : Nat) : DFA2 × List DEvent × Bool :=
  match maxSteps with
  | 0 => (m, [], false)
  | Nat.succ n =>
      let r := DFA2.step m
      if r.2.2 = true then (r.1, r.2.1, true)
      else
        let r2 := DFA2.run r.1 n
        (r2.1, r.2.1 ++ r2.2.1, r2.2.2)

/-- `Machine.DFA.prototype.setInputString` from `src/unnamed/part_000`
(lines 159-163). -/
def DFA2.setInputString (m : DFA2) (input : List String) : DFA2 × List DEvent :=
  ({ m with tape := input, pointerPosition := 0 }, [DEvent.pointerChange 0])

/-- `Machine.DFA.prototype.reset` from `src/unnamed/part_000`
(lines 170-174); the `BaseMachine.reset` part is modelled from the spec. -/
def DFA2.reset (m : DFA2) : DFA2 × List DEvent :=
  ({ m with currentState := m.initialState, stepCount := 0, isHalted := false,
            pointerPosition := 0, isAccepted := false },
   [DEvent.pointerChange 0])

/-- The active condition `src/unnamed/part_000`'s `DFA.step` builds when it
attempts a transition (lines 288-304): the stored epsilon condition when the
current state has one, else the current tape character. -/
def DFA2.activeCondition (m : DFA2) : ConditionD :=
  match getEpsilonTransitionConditionD m.transitionFunction m.currentState with
  | some c => c
  | none => { state := m.currentState, character := Tape.charAt m.tape m.pointerPosition }

/-- The character `src/unnamed/part_000`'s `DFA.step` consumes when it attempts
a transition: the epsilon sentinel in the epsilon branch, else the tape
character at the cursor. -/
def DFA2.currentCharacter (m : DFA2) : String :=
  match getEpsilonTransitionConditionD m.transitionFunction m.currentState with
  | some _ => EPSILON_STRING
  | none => Tape.charAt m.tape m.pointerPosition

/-- The acceptance-mode constant `Machine.DPDA.ACCEPT_BY_STATE`
(`src/src/DFA.js` line 368). -/
def ACCEPT_BY_STATE : String := "0"

/-- The acceptance-mode constant `Machine.DPDA.ACCEPT_BY_STACK`
(`src/src/DFA.js` line 380). -/
def ACCEPT_BY_STACK : String := "1"

/-- The `Machine.DPDA` configuration of `src/src/DFA.js`.  Base-machine fields
as in `DFA1`; the stack-related fields come from `DPDA._init`.
`acceptanceMode` is `none` while the JavaScript field is `null`. -/
structure DPDA where
  transitionFunction : List (ConditionP × CommandP)
  initialState : State
  currentState : State
  stepCount : Nat
  isHalted : Bool
  isAccepted : Bool
  tape : List String
  pointerPosition : Nat
  stackAlphabet : Alphabet
  initialStackSymbol : String
  stack : List String
  acceptanceMode : Option String

/-- `Machine.DPDA.prototype.stackPeek` (`src/src/DFA.js` lines 560-563). -/
def DPDA.stackPeek (m : DPDA) : String :=
  Stack.peek m.stack

/-- `Machine.DPDA.prototype.stackPop` (`src/src/DFA.js` lines 549-553):
removes the topmost symbol, fires `onStackPop` with it (`none` when the stack
was empty), and returns it. -/
def DPDA.stackPop (m : DPDA) : DPDA × List PEvent × Option String :=
  ({ m with stack := m.stack.tail }, [PEvent.stackPopE m.stack.head?], m.stack.head?)

/-- `Machine.DPDA.prototype.stackPush` (`src/src/DFA.js` lines 572-578): an
error when the argument is not compatible with the stack alphabet — thrown
before any mutation, so the error carries the unchanged configuration —
otherwise the push plus the `onStackPush` callback. -/
def DPDA.stackPush (m : DPDA) (str : String) : Except (String × DPDA) (DPDA × List PEvent) :=
  if m.stackAlphabet.isCompatibleWith str = false then
    Except.error ("Invalid stack string.", m)
  else
    Except.ok ({ m with stack := str :: m.stack }, [PEvent.stackPushE str])

/-- `Machine.DPDA.prototype.setInitialStackSymbol` (`src/src/DFA.js`
lines 495-501): an error when the argument is not contained in the stack
alphabet — thrown before any mutation — otherwise the field assignment. -/
def DPDA.setInitialStackSymbol (m : DPDA) (initialStackSymbol : String) :
    Except (String × DPDA) DPDA :=
  if m.stackAlphabet.contains initialStackSymbol = false then
    Except.error ("Invalid initial stack character", m)
  else
    Except.ok { m with initialStackSymbol := initialStackSymbol }

/-- Construction of a `Machine.DPDA` (`_init`, `src/src/DFA.js` lines 396-449):
validates the initial stack symbol against the stack alphabet (via
`setInitialStackSymbol`), then pushes it (via `stackPush`); errors on either
validation failure. -/
def DPDA.mk0 (initialState : State) (stackAlphabet : Alphabet)
    (initialStackSymbol : String) : Except String DPDA :=
  if stackAlphabet.contains initialStackSymbol = false then
    Except.error "Invalid initial stack character"
  else if stackAlphabet.isCompatibleWith initialStackSymbol = false then
    Except.error "Invalid stack string."
  else
    Except.ok
      { transitionFunction := [], initialState := initialState,
        currentState := initialState, stepCount := 0, isHalted := false,
        isAccepted := false, tape := [], pointerPosition := 0,
        stackAlphabet := stackAlphabet,
        initialStackSymbol := initialStackSymbol,
        stack := [initialStackSymbol], acceptanceMode := none }

/-- `Machine.DPDA.prototype.halt` (`src/src/DFA.js` lines 738-774): the DPDA
halting predicate — end of tape, and no epsilon transition for the current
state or an epsilon topmost stack symbol — which on firing marks the machine
halted and decides acceptance: by state when the current state is accepting,
else by stack when the stack is empty, else rejection. -/
def DPDA.halt (m : DPDA) : DPDA × List PEvent × Bool :=
  if m.pointerPosition ≥ m.tape.length ∧
      (hasEpsilonTransitionP m.transitionFunction m.currentState = false ∨
        Stack.peek m.stack = EPSILON_STRING) then
    if m.currentState.isAccepting = true then
      ({ m with isHalted := true, isAccepted := true,
                acceptanceMode := some ACCEPT_BY_STATE },
       [PEvent.accept m.currentState m.stepCount m.pointerPosition,
        PEvent.halt m.currentState m.stepCount m.pointerPosition], true)
    else if m.stack.isEmpty = true then
      ({ m with isHalted := true, isAccepted := true,
                acceptanceMode := some ACCEPT_BY_STACK },
       [PEvent.accept m.currentState m.stepCount m.pointerPosition,
        PEvent.halt m.currentState m.stepCount m.pointerPosition], true)
    else
      ({ m with isHalted := true, isAccepted := false },
       [PEvent.reject m.currentState m.stepCount m.pointerPosition,
        PEvent.halt m.currentState m.stepCount m.pointerPosition], true)
  else (m, [], false)

/-- The post-transition halting re-check at the end of
`Machine.DPDA.prototype.step` (`src/src/DFA.js` lines 859-869): run `halt` on
the configuration after the state change; only when it does not fire is the
`onStep` callback fired. -/
def DPDA.checkHaltAfter (m3 : DPDA) (evs2 : List PEvent) (condition : ConditionP)
    (command : CommandP) : DPDA × List PEvent × Bool :=
  if (DPDA.halt m3).2.2 = true then
    ((DPDA.halt m3).1, evs2 ++ (DPDA.halt m3).2.1, true)
  else
    (m3, evs2 ++ [PEvent.stepE condition command m3.stepCount m3.pointerPosition], false)

/-- The tail of `Machine.DPDA.prototype.step` after the stack mutations
(`src/src/DFA.js` lines 850-870): conditional cursor advance (gated on the
pre-transition current state having no epsilon transition), state change, then
the post-transition halting re-check. -/
def DPDA.stepFinish (m : DPDA) (currentState : State) (condition : ConditionP)
    (command : CommandP) (evs : List PEvent) : DPDA × List PEvent × Bool :=
  if hasEpsilonTransitionP m.transitionFunction currentState = false then
    DPDA.checkHaltAfter
      { m with pointerPosition := m.pointerPosition + 1,
               currentState := command.state }
      (evs ++ [PEvent.pointerChange (m.pointerPosition + 1)]) condition command
  else
    DPDA.checkHaltAfter { m with currentState := command.state } evs condition command

/-- One call of `Machine.DPDA.prototype.step` (`src/src/DFA.js` lines
783-871): idempotent return when halted, step-count increment, pre-transition
halting check, epsilon-preferring choice of the active condition, rejection on
a missing command, the pop gated on the condition's stack element, the push
(which can throw `InvalidStackSymbolError`, modelled as the error case
carrying the configuration at throw time), then `DPDA.stepFinish`. -/
def DPDA.step (m : DPDA) : Except (String × DPDA) (DPDA × List PEvent × Bool) :=
  if m.isHalted = true then Except.ok (m, [], true)
  else
    let m1 : DPDA := { m with stepCount := m.stepCount + 1 }
    let topmostStackCharacter := Stack.peek m1.stack
    let h1 := DPDA.halt m1
    if h1.2.2 = true then Except.ok (h1.1, h1.2.1, true)
    else
      let cc : String × ConditionP :=
        match getEpsilonTransitionConditionP m1.transitionFunction m1.currentState with
        | some c => (EPSILON_STRING, c)
        | none =>
            let ch := Tape.charAt m1.tape m1.pointerPosition
            (ch, { state := m1.currentState, character := ch,
                   stackElement := topmostStackCharacter })
      let condition := cc.2
      match getCommandP m1.transitionFunction condition with
      | none =>
          Except.ok
            ({ m1 with isHalted := true, isAccepted := false },
             [PEvent.reject m1.currentState m1.stepCount m1.pointerPosition,
              PEvent.halt m1.currentState m1.stepCount m1.pointerPosition], true)
      | some command =>
          let m2 : DPDA :=
            if condition.stackElement = EPSILON_STRING then m1
            else { m1 with stack := m1.stack.tail }
          let evs1 : List PEvent :=
            if condition.stackElement = EPSILON_STRING then []
            else [PEvent.stackPopE m1.stack.head?]
          if command.action = CommandAction.stackChange ∧
              command.argument ≠ EPSILON_STRING then
            if m2.stackAlphabet.isCompatibleWith command.argument = false then
              Except.error ("Invalid stack string.", m2)
            else
              Except.ok
                (DPDA.stepFinish { m2 with stack := command.argument :: m2.stack }
                  m1.currentState condition command
                  (evs1 ++ [PEvent.stackPushE command.argument]))
          else Except.ok (DPDA.stepFinish m2 m1.currentState condition command evs1)

/-- `Machine.DPDA.prototype.run` (`src/src/DFA.js` lines 881-890); a thrown
stack-alphabet error propagates out of the loop. -/
def DPDA.run (m : DPDA) (maxSteps : Nat) : Except (String × DPDA) (DPDA × List PEvent × Bool) :=
  match maxSteps with
  | 0 => Except.ok (m, [], false)
  | Nat.succ n =>
      match DPDA.step m with
      | Except.error e => Except.error e
      | Except.ok (m', evs, r) =>
          if r = true then Except.ok (m', evs, true)
          else
            match DPDA.run m' n with
            | Except.error e => Except.error e
            | Except.ok (m'', evs', r') => Except.ok (m'', evs ++ evs', r')

/-- `Machine.DPDA.prototype.setInputString` (`src/src/DFA.js` lines 653-657). -/
def DPDA.setInputString (m : DPDA) (input : List String) : DPDA × List PEvent :=
  ({ m with tape := input, pointerPosition := 0 }, [PEvent.pointerChange 0])

/-- `Machine.DPDA.prototype.reset` (`src/src/DFA.js` lines 664-670): the
spec-modelled `BaseMachine.reset`, cursor to 0, stack cleared, the initial
stack symbol re-pushed (an error when it is no longer compatible with the
stack alphabet, carrying the configuration at throw time), accepted flag
cleared. -/
def DPDA.reset (m : DPDA) : Except (String × DPDA) (DPDA × List PEvent) :=
  let m1 : DPDA := { m with currentState := m.initialState, stepCount := 0,
                            isHalted := false, pointerPosition := 0, stack := [] }
  if m1.stackAlphabet.isCompatibleWith m1.initialStackSymbol = false then
    Except.error ("Invalid stack string.", m1)
  else
    Except.ok ({ m1 with stack := [m1.initialStackSymbol], isAccepted := false },
      [PEvent.pointerChange 0, PEvent.stackPushE m1.initialStackSymbol])

/-- The active condition `Machine.DPDA.prototype.step` builds when it attempts
a transition (`src/src/DFA.js` lines 802-820): the stored epsilon condition
when the current state has one — with no comparison of its stack element to
the actual top of the stack — else the tape character at the cursor paired
with the topmost stack symbol. -/
def DPDA.activeCondition (m : DPDA) : ConditionP :=
  match getEpsilonTransitionConditionP m.transitionFunction m.currentState with
  | some c => c
  | none => { state := m.currentState, character := Tape.charAt m.tape m.pointerPosition,
              stackElement := Stack.peek m.stack }

theorem DPDA.halt_flag_iff (m : DPDA) :
    (DPDA.halt m).2.2 = true ↔
      (m.pointerPosition ≥ m.tape.length ∧
        (hasEpsilonTransitionP m.transitionFunction m.currentState = false ∨
          Stack.peek m.stack = EPSILON_STRING)) := by
  unfold DPDA.halt
  split_ifs <;> simp_all

theorem DPDA.halt_frame (m : DPDA) :
    (DPDA.halt m).1.pointerPosition = m.pointerPosition ∧
    (DPDA.halt m).1.currentState = m.currentState ∧
    (DPDA.halt m).1.stack = m.stack ∧
    (DPDA.halt m).1.stepCount = m.stepCount ∧
    (DPDA.halt m).1.tape = m.tape ∧
    (DPDA.halt m).1.transitionFunction = m.transitionFunction := by
  unfold DPDA.halt
  split_ifs
  all_goals simp

theorem DPDA.halt_of_flag_false (m : DPDA) (h : (DPDA.halt m).2.2 = false) :
    DPDA.halt m = (m, [], false) := by
  unfold DPDA.halt at h ⊢
  split_ifs at h ⊢
  all_goals simp_all

theorem DPDA.halt_isHalted_of_fired (m : DPDA) (h : (DPDA.halt m).2.2 = true) :
    (DPDA.halt m).1.isHalted = true := by
  unfold DPDA.halt at h ⊢
  split_ifs at h ⊢ <;> simp_all

theorem DFA2.halt_flag_iff2 (m : DFA2) :
    (DFA2.halt m).2.2 = true ↔
      (m.pointerPosition ≥ m.tape.length ∧
        hasEpsilonTransitionD m.transitionFunction m.currentState = false) := by
  unfold DFA2.halt
  split_ifs <;> simp_all

theorem DFA2.halt_frame2 (m : DFA2) :
    (DFA2.halt m).1.pointerPosition = m.pointerPosition ∧
    (DFA2.halt m).1.currentState = m.currentState ∧
    (DFA2.halt m).1.stepCount = m.stepCount ∧
    (DFA2.halt m).1.tape = m.tape ∧
    (DFA2.halt m).1.transitionFunction = m.transitionFunction := by
  unfold DFA2.halt
  split_ifs
  all_goals simp

theorem DFA2.halt_of_flag_false2 (m : DFA2) (h : (DFA2.halt m).2.2 = false) :
    DFA2.halt m = (m, [], false) := by
  unfold DFA2.halt at h ⊢
  split_ifs at h ⊢
  all_goals simp_all

theorem DFA2.halt_fired (m : DFA2) (h : (DFA2.halt m).2.2 = true) :
    (DFA2.halt m).1.isHalted = true ∧
    (DFA2.halt m).1.isAccepted = m.currentState.isAccepting := by
  unfold DFA2.halt at h ⊢
  split_ifs at h ⊢ <;> simp_all

/-- Modelled from the spec: the default `Machine.Alphabet.UNRESTRICTED`
alphabet, which accepts every symbol and string. -/
def UNRESTRICTED : Alphabet :=
  { contains := fun _ => true, isCompatibleWith := fun _ => true, blank := " " }

/-- A concrete non-accepting state used by witnesses. -/
def q0 : State := { label := "q0", isAccepting := false }

/-- A concrete accepting state used by witnesses. -/
def q1 : State := { label := "q1", isAccepting := true }

/-- A concrete freshly constructed DPDA over the unrestricted stack alphabet
with initial stack symbol `Z`, used by witnesses. -/
def sampleDPDA : DPDA :=
  { transitionFunction := [], initialState := q0, currentState := q0,
    stepCount := 0, isHalted := false, isAccepted := false, tape := [],
    pointerPosition := 0, stackAlphabet := UNRESTRICTED,
    initialStackSymbol := "Z", stack := ["Z"], acceptanceMode := none }

/-- C6: for every machine (both DFA variants and the DPDA), once the halted
flag is true, a `step()` call returns the halted result and the unchanged
configuration — cursor, stack, step count, current state and accepted flag
included — and fires no callbacks. -/
theorem claimC6 :
    (∀ m : DFA1, m.isHalted = true → DFA1.step m = (m, [], true)) ∧
    (∀ m : DFA2, m.isHalted = true → DFA2.step m = (m, [], true)) ∧
    (∀ m : DPDA, m.isHalted = true → DPDA.step m = Except.ok (m, [], true)) := by
  refine ⟨?_, ?_, ?_⟩ <;> intro m h
  · unfold DFA1.step
    simp [h]
  · unfold DFA2.step
    simp [h]
  · unfold DPDA.step
    simp [h]

/-- Witness for C6 at concrete halted machines of each kind. -/
theorem claimC6_witness :
    DFA1.step { DFA1.mk0 q0 with isHalted := true } =
      ({ DFA1.mk0 q0 with isHalted := true }, [], true) ∧
    DFA2.step { DFA2.mk0 q0 with isHalted := true } =
      ({ DFA2.mk0 q0 with isHalted := true }, [], true) ∧
    DPDA.step { sampleDPDA with isHalted := true } =
      Except.ok ({ sampleDPDA with isHalted := true }, [], true) :=
  ⟨claimC6.1 _ rfl, claimC6.2.1 _ rfl, claimC6.2.2 _ rfl⟩

/-- C2: for the DPDA, the pre-transition halting check of `step()` fires
exactly when the cursor is at or past the end of the tape and the current
state has no epsilon transition or the topmost stack symbol is the epsilon
sentinel; when it fires on a non-halted machine, `step()` returns halted with
the cursor, current state and stack untouched (no transition attempted) and
only the step count incremented. -/
theorem claimC2 :
    (∀ m : DPDA, (DPDA.halt m).2.2 = true ↔
      (m.pointerPosition ≥ m.tape.length ∧
        (hasEpsilonTransitionP m.transitionFunction m.currentState = false ∨
          Stack.peek m.stack = EPSILON_STRING))) ∧
    (∀ m : DPDA, m.isHalted = false →
      m.pointerPosition ≥ m.tape.length →
      (hasEpsilonTransitionP m.transitionFunction m.currentState = false ∨
        Stack.peek m.stack = EPSILON_STRING) →
      ∃ m' evs, DPDA.step m = Except.ok (m', evs, true) ∧
        m'.isHalted = true ∧ m'.pointerPosition = m.pointerPosition ∧
        m'.currentState = m.currentState ∧ m'.stack = m.stack ∧
        m'.stepCount = m.stepCount + 1) := by
  refine ⟨fun m => DPDA.halt_flag_iff m, fun m h hp hd => ?_⟩
  have hg : (DPDA.halt { m with stepCount := m.stepCount + 1 }).2.2 = true := by
    rw [DPDA.halt_flag_iff]
    exact ⟨hp, hd⟩
  refine ⟨(DPDA.halt { m with stepCount := m.stepCount + 1 }).1,
          (DPDA.halt { m with stepCount := m.stepCount + 1 }).2.1, ?_,
          DPDA.halt_isHalted_of_fired _ hg,
          (DPDA.halt_frame _).1, (DPDA.halt_frame _).2.1,
          (DPDA.halt_frame _).2.2.1, (DPDA.halt_frame _).2.2.2.1⟩
  unfold DPDA.step
  rw [if_neg (by simp [h])]
  simp [hg]

/-- Witness for C2 at a concrete non-halted DPDA with an exhausted tape and no
epsilon transition. -/
theorem claimC2_witness :
    ∃ m' evs, DPDA.step sampleDPDA = Except.ok (m', evs, true) ∧
      m'.isHalted = true ∧ m'.pointerPosition = sampleDPDA.pointerPosition ∧
      m'.currentState = sampleDPDA.currentState ∧ m'.stack = sampleDPDA.stack ∧
      m'.stepCount = sampleDPDA.stepCount + 1 :=
  claimC2.2 sampleDPDA rfl (by decide) (Or.inl rfl)

/-- C3: for the DPDA, whenever the halting predicate fires: an accepting
current state yields acceptance with mode by-state (taking priority even when
the stack is also empty); otherwise an empty stack yields acceptance with
mode by-stack; otherwise the machine is rejected and the acceptance-mode
field is not assigned (it keeps its previous value). -/
theorem claimC3 (m : DPDA)
    (hg : m.pointerPosition ≥ m.tape.length ∧
      (hasEpsilonTransitionP m.transitionFunction m.currentState = false ∨
        Stack.peek m.stack = EPSILON_STRING)) :
    (m.currentState.isAccepting = true →
      (DPDA.halt m).1.isAccepted = true ∧
      (DPDA.halt m).1.acceptanceMode = some ACCEPT_BY_STATE) ∧
    (m.currentState.isAccepting = false → m.stack = [] →
      (DPDA.halt m).1.isAccepted = true ∧
      (DPDA.halt m).1.acceptanceMode = some ACCEPT_BY_STACK) ∧
    (m.currentState.isAccepting = false → m.stack ≠ [] →
      (DPDA.halt m).1.isAccepted = false ∧
      (DPDA.halt m).1.acceptanceMode = m.acceptanceMode) := by
  unfold DPDA.halt
  split_ifs
  all_goals simp_all

/-- Witness for C3 at concrete halting configurations: an accepting state with
a non-empty stack (by-state), a non-accepting state with an empty stack
(by-stack), and a non-accepting state with a non-empty stack (rejection). -/
theorem claimC3_witness :
    ((DPDA.halt { sampleDPDA with currentState := q1 }).1.isAccepted = true ∧
      (DPDA.halt { sampleDPDA with currentState := q1 }).1.acceptanceMode =
        some ACCEPT_BY_STATE) ∧
    ((DPDA.halt { sampleDPDA with stack := [] }).1.isAccepted = true ∧
      (DPDA.halt { sampleDPDA with stack := [] }).1.acceptanceMode =
        some ACCEPT_BY_STACK) ∧
    ((DPDA.halt sampleDPDA).1.isAccepted = false ∧
      (DPDA.halt sampleDPDA).1.acceptanceMode = none) :=
  ⟨(claimC3 { sampleDPDA with currentState := q1 } ⟨by decide, Or.inl rfl⟩).1 rfl,
   (claimC3 { sampleDPDA with stack := [] } ⟨by decide, Or.inl rfl⟩).2.1 rfl rfl,
   (claimC3 sampleDPDA ⟨by decide, Or.inl rfl⟩).2.2 rfl (by decide)⟩

/-- A concrete `src/src/DFA.js` DFA whose initial state has a registered
epsilon transition and whose tape is empty, refuting C5 for that variant. -/
def mC5 : DFA1 :=
  { DFA1.mk0 q0 with
      transitionFunction :=
        [({ state := q0, character := EPSILON_STRING }, { state := q0 })] }

/-- Counterexample to C5 as stated: in the `src/src/DFA.js` DFA variant, a
non-halted machine whose current state has an epsilon transition and whose
cursor is at the end of the tape still halts on `step()` — the claimed
halting predicate (end of tape AND no epsilon transition) is false here, yet
the machine halts before attempting any transition. -/
theorem claimC5_counterexample :
    mC5.isHalted = false ∧
    mC5.pointerPosition ≥ mC5.tape.length ∧
    hasEpsilonTransitionD mC5.transitionFunction mC5.currentState = true ∧
    (DFA1.step mC5).1.isHalted = true ∧ (DFA1.step mC5).2.2 = true := by
  decide

/-- C5 amended: for the epsilon-aware DFA variant (`src/unnamed/part_000`),
the pre-transition halting check of `step()` fires exactly when the cursor
has reached the end of the tape and the current state has no epsilon
transition, and at that halt the machine is accepted iff the current state is
accepting; the `src/src/DFA.js` variant instead halts whenever the cursor
reaches the end of the tape, ignoring epsilon transitions. -/
theorem claimC5 :
    (∀ m : DFA2, (DFA2.halt m).2.2 = true ↔
      (m.pointerPosition ≥ m.tape.length ∧
        hasEpsilonTransitionD m.transitionFunction m.currentState = false)) ∧
    (∀ m : DFA2, m.isHalted = false →
      m.pointerPosition ≥ m.tape.length →
      hasEpsilonTransitionD m.transitionFunction m.currentState = false →
      (DFA2.step m).2.2 = true ∧
      (DFA2.step m).1.isHalted = true ∧
      (DFA2.step m).1.isAccepted = m.currentState.isAccepting ∧
      (DFA2.step m).1.pointerPosition = m.pointerPosition ∧
      (DFA2.step m).1.currentState = m.currentState ∧
      (DFA2.step m).1.stepCount = m.stepCount + 1) := by
  refine ⟨fun m => DFA2.halt_flag_iff2 m, fun m h hp hd => ?_⟩
  have hg : (DFA2.halt { m with stepCount := m.stepCount + 1 }).2.2 = true := by
    rw [DFA2.halt_flag_iff2]
    exact ⟨hp, hd⟩
  have hstep : DFA2.step m =
      ((DFA2.halt { m with stepCount := m.stepCount + 1 }).1,
       (DFA2.halt { m with stepCount := m.stepCount + 1 }).2.1, true) := by
    unfold DFA2.step
    rw [if_neg (by simp [h])]
    simp [hg]
  rw [hstep]
  exact ⟨rfl, (DFA2.halt_fired _ hg).1, (DFA2.halt_fired _ hg).2,
         (DFA2.halt_frame2 _).1, (DFA2.halt_frame2 _).2.1, (DFA2.halt_frame2 _).2.2.1⟩

/-- Witness for C5 at a concrete non-halted epsilon-aware DFA with an
accepting current state, an exhausted tape and no epsilon transition. -/
theorem claimC5_witness :
    (DFA2.step { DFA2.mk0 q1 with tape := [] }).2.2 = true ∧
    (DFA2.step { DFA2.mk0 q1 with tape := [] }).1.isHalted = true ∧
    (DFA2.step { DFA2.mk0 q1 with tape := [] }).1.isAccepted =
      ({ DFA2.mk0 q1 with tape := [] } : DFA2).currentState.isAccepting ∧
    (DFA2.step { DFA2.mk0 q1 with tape := [] }).1.pointerPosition =
      ({ DFA2.mk0 q1 with tape := [] } : DFA2).pointerPosition ∧
    (DFA2.step { DFA2.mk0 q1 with tape := [] }).1.currentState =
      ({ DFA2.mk0 q1 with tape := [] } : DFA2).currentState ∧
    (DFA2.step { DFA2.mk0 q1 with tape := [] }).1.stepCount =
      ({ DFA2.mk0 q1 with tape := [] } : DFA2).stepCount + 1 :=
  claimC5.2 { DFA2.mk0 q1 with tape := [] } rfl (by decide) rfl

/-- C9: for the DPDA, `stackPush` raises an error exactly when its argument is
not compatible with the stack alphabet, and `setInitialStackSymbol` raises an
error exactly when its argument is not contained in the stack alphabet; each
failing call carries the completely unchanged configuration (the check
precedes any mutation), and each succeeding call performs exactly its one
mutation. -/
theorem claimC9 :
    (∀ (m : DPDA) (str : String),
      (DPDA.stackPush m str = Except.error ("Invalid stack string.", m) ↔
        m.stackAlphabet.isCompatibleWith str = false) ∧
      (m.stackAlphabet.isCompatibleWith str = true →
        DPDA.stackPush m str =
          Except.ok ({ m with stack := str :: m.stack }, [PEvent.stackPushE str]))) ∧
    (∀ (m : DPDA) (s : String),
      (DPDA.setInitialStackSymbol m s =
          Except.error ("Invalid initial stack character", m) ↔
        m.stackAlphabet.contains s = false) ∧
      (m.stackAlphabet.contains s = true →
        DPDA.setInitialStackSymbol m s =
          Except.ok { m with initialStackSymbol := s })) := by
  constructor
  · intro m str
    unfold DPDA.stackPush
    split_ifs with hc <;> simp_all
  · intro m s
    unfold DPDA.setInitialStackSymbol
    split_ifs with hc <;> simp_all

/-- A stack alphabet containing exactly the symbol `Z`, used by the C9
witness. -/
def onlyZ : Alphabet :=
  { contains := fun s => s == "Z", isCompatibleWith := fun s => s == "Z",
    blank := "Z" }

/-- Witness for C9 at a concrete DPDA over the `Z`-only stack alphabet: a
failing and a succeeding call of each operation. -/
theorem claimC9_witness :
    (DPDA.stackPush { sampleDPDA with stackAlphabet := onlyZ } "X" =
        Except.error ("Invalid stack string.", { sampleDPDA with stackAlphabet := onlyZ }) ∧
      DPDA.stackPush { sampleDPDA with stackAlphabet := onlyZ } "Z" =
        Except.ok ({ sampleDPDA with stackAlphabet := onlyZ, stack := "Z" :: sampleDPDA.stack },
          [PEvent.stackPushE "Z"])) ∧
    (DPDA.setInitialStackSymbol { sampleDPDA with stackAlphabet := onlyZ } "X" =
        Except.error ("Invalid initial stack character", { sampleDPDA with stackAlphabet := onlyZ }) ∧
      DPDA.setInitialStackSymbol { sampleDPDA with stackAlphabet := onlyZ } "Z" =
        Except.ok { sampleDPDA with stackAlphabet := onlyZ, initialStackSymbol := "Z" }) :=
  ⟨⟨((claimC9.1 { sampleDPDA with stackAlphabet := onlyZ } "X").1).mpr rfl,
    (claimC9.1 { sampleDPDA with stackAlphabet := onlyZ } "Z").2 rfl⟩,
   ⟨((claimC9.2 { sampleDPDA with stackAlphabet := onlyZ } "X").1).mpr rfl,
    (claimC9.2 { sampleDPDA with stackAlphabet := onlyZ } "Z").2 rfl⟩⟩

theorem DFA2.halt_pointer2 (m : DFA2) :
    (DFA2.halt m).1.pointerPosition = m.pointerPosition := (DFA2.halt_frame2 m).1

theorem DFA2.halt_state2 (m : DFA2) :
    (DFA2.halt m).1.currentState = m.currentState := (DFA2.halt_frame2 m).2.1

theorem DFA2.halt_stepCount2 (m : DFA2) :
    (DFA2.halt m).1.stepCount = m.stepCount := (DFA2.halt_frame2 m).2.2.1

theorem DPDA.halt_pointer (m : DPDA) :
    (DPDA.halt m).1.pointerPosition = m.pointerPosition := (DPDA.halt_frame m).1

theorem DPDA.halt_state (m : DPDA) :
    (DPDA.halt m).1.currentState = m.currentState := (DPDA.halt_frame m).2.1

theorem DPDA.halt_stack (m : DPDA) :
    (DPDA.halt m).1.stack = m.stack := (DPDA.halt_frame m).2.2.1

theorem DPDA.halt_stepCount (m : DPDA) :
    (DPDA.halt m).1.stepCount = m.stepCount := (DPDA.halt_frame m).2.2.2.1

/-- The configuration held by the caller after a `DPDA.step` (or other DPDA
operation) result: the new configuration on normal return, or the
configuration at throw time when the stack-alphabet error propagates. -/
def DPDA.resultConfig : Except (String × DPDA) (DPDA × List PEvent × Bool) → DPDA
  | Except.error e => e.2
  | Except.ok r => r.1

/-- The character `Machine.DPDA.prototype.step` consumes when it attempts a
transition (`src/src/DFA.js` lines 802-820): the epsilon sentinel in the
epsilon branch, else the tape character at the cursor. -/
def DPDA.currentCharacter (m : DPDA) : String :=
  match getEpsilonTransitionConditionP m.transitionFunction m.currentState with
  | some _ => EPSILON_STRING
  | none => Tape.charAt m.tape m.pointerPosition

/-- C7: for every machine (both DFA variants and the DPDA), a `step()` on a
non-halted machine that builds an active condition with no registered command
halts and rejects at that step — halted set, accepted cleared — leaving the
cursor, current state and (for the DPDA) stack contents unchanged and the
step count exactly one greater than before the call. -/
theorem claimC7 :
    (∀ m : DFA1, m.isHalted = false →
      m.pointerPosition < m.tape.length →
      getCommandD m.transitionFunction (DFA1.activeCondition m) = none →
      (DFA1.step m).2.2 = true ∧ (DFA1.step m).1.isHalted = true ∧
      (DFA1.step m).1.isAccepted = false ∧
      (DFA1.step m).1.pointerPosition = m.pointerPosition ∧
      (DFA1.step m).1.currentState = m.currentState ∧
      (DFA1.step m).1.stepCount = m.stepCount + 1) ∧
    (∀ m : DFA2, m.isHalted = false →
      (DFA2.halt { m with stepCount := m.stepCount + 1 }).2.2 = false →
      getCommandD m.transitionFunction (DFA2.activeCondition m) = none →
      (DFA2.step m).2.2 = true ∧ (DFA2.step m).1.isHalted = true ∧
      (DFA2.step m).1.isAccepted = false ∧
      (DFA2.step m).1.pointerPosition = m.pointerPosition ∧
      (DFA2.step m).1.currentState = m.currentState ∧
      (DFA2.step m).1.stepCount = m.stepCount + 1) ∧
    (∀ m : DPDA, m.isHalted = false →
      (DPDA.halt { m with stepCount := m.stepCount + 1 }).2.2 = false →
      getCommandP m.transitionFunction (DPDA.activeCondition m) = none →
      ∃ evs, DPDA.step m =
        Except.ok ({ m with stepCount := m.stepCount + 1,
                            isHalted := true, isAccepted := false }, evs, true)) := by
  refine ⟨?_, ?_, ?_⟩
  · intro m h hp hcmd
    unfold DFA1.activeCondition at hcmd
    unfold DFA1.step
    rw [if_neg (by simp [h])]
    rw [if_neg (by simp [Nat.not_le_of_lt hp])]
    simp [hcmd]
  · intro m h hpre hcmd
    unfold DFA2.step
    rw [if_neg (by simp [h]), if_neg (by simp [hpre])]
    unfold DFA2.activeCondition at hcmd
    cases hc : getEpsilonTransitionConditionD m.transitionFunction m.currentState with
    | some c =>
        rw [hc] at hcmd
        simp only [hc]
        unfold DFA2.stepWith
        simp [hcmd]
    | none =>
        rw [hc] at hcmd
        simp only [hc]
        unfold DFA2.stepWith
        simp [hcmd]
  · intro m h hpre hcmd
    unfold DPDA.step
    rw [if_neg (by simp [h]), if_neg (by simp [hpre])]
    unfold DPDA.activeCondition at hcmd
    cases hc : getEpsilonTransitionConditionP m.transitionFunction m.currentState with
    | some c =>
        rw [hc] at hcmd
        simp only [hc]
        simp [hcmd]
    | none =>
        rw [hc] at hcmd
        simp only [hc]
        simp [hcmd]

/-- Witness for C7 at concrete machines of each kind — a one-symbol tape and
an empty transition function, so the built condition has no command. -/
theorem claimC7_witness :
    ((DFA1.step { DFA1.mk0 q0 with tape := ["a"] }).2.2 = true ∧
      (DFA1.step { DFA1.mk0 q0 with tape := ["a"] }).1.isHalted = true ∧
      (DFA1.step { DFA1.mk0 q0 with tape := ["a"] }).1.isAccepted = false ∧
      (DFA1.step { DFA1.mk0 q0 with tape := ["a"] }).1.pointerPosition =
        ({ DFA1.mk0 q0 with tape := ["a"] } : DFA1).pointerPosition ∧
      (DFA1.step { DFA1.mk0 q0 with tape := ["a"] }).1.currentState =
        ({ DFA1.mk0 q0 with tape := ["a"] } : DFA1).currentState ∧
      (DFA1.step { DFA1.mk0 q0 with tape := ["a"] }).1.stepCount =
        ({ DFA1.mk0 q0 with tape := ["a"] } : DFA1).stepCount + 1) ∧
    ((DFA2.step { DFA2.mk0 q0 with tape := ["a"] }).2.2 = true ∧
      (DFA2.step { DFA2.mk0 q0 with tape := ["a"] }).1.isHalted = true ∧
      (DFA2.step { DFA2.mk0 q0 with tape := ["a"] }).1.isAccepted = false ∧
      (DFA2.step { DFA2.mk0 q0 with tape := ["a"] }).1.pointerPosition =
        ({ DFA2.mk0 q0 with tape := ["a"] } : DFA2).pointerPosition ∧
      (DFA2.step { DFA2.mk0 q0 with tape := ["a"] }).1.currentState =
        ({ DFA2.mk0 q0 with tape := ["a"] } : DFA2).currentState ∧
      (DFA2.step { DFA2.mk0 q0 with tape := ["a"] }).1.stepCount =
        ({ DFA2.mk0 q0 with tape := ["a"] } : DFA2).stepCount + 1) ∧
    (∃ evs, DPDA.step { sampleDPDA with tape := ["a"] } =
      Except.ok ({ sampleDPDA with
                   tape := ["a"], stepCount := sampleDPDA.stepCount + 1,
                   isHalted := true, isAccepted := false }, evs, true)) :=
  ⟨claimC7.1 { DFA1.mk0 q0 with tape := ["a"] } rfl (by decide) rfl,
   claimC7.2.1 { DFA2.mk0 q0 with tape := ["a"] } rfl (by decide) rfl,
   claimC7.2.2 { sampleDPDA with tape := ["a"] } rfl (by decide) rfl⟩

theorem DFA2.checkHaltAfter_pointer2 (m3 : DFA2) (evs2 : List DEvent) :
    (DFA2.checkHaltAfter m3 evs2).1.pointerPosition = m3.pointerPosition := by
  unfold DFA2.checkHaltAfter
  split
  · exact DFA2.halt_pointer2 m3
  · rfl

theorem DFA2.stepWith_pointer_eps (m : DFA2) (c : ConditionD) :
    (DFA2.stepWith m EPSILON_STRING c).1.pointerPosition = m.pointerPosition := by
  unfold DFA2.stepWith
  cases hcmd : getCommandD m.transitionFunction c with
  | none => simp
  | some command => simp [DFA2.checkHaltAfter_pointer2]

theorem DFA2.stepWith_pointer (m : DFA2) (ch : String) (c : ConditionD) :
    (DFA2.stepWith m ch c).1.pointerPosition = m.pointerPosition ∨
    ((DFA2.stepWith m ch c).1.pointerPosition = m.pointerPosition + 1 ∧
      ch ≠ EPSILON_STRING) := by
  unfold DFA2.stepWith
  cases hcmd : getCommandD m.transitionFunction c with
  | none => exact Or.inl (by simp)
  | some command =>
      by_cases hch : ch = EPSILON_STRING
      · exact Or.inl (by simp [hch, DFA2.checkHaltAfter_pointer2])
      · exact Or.inr ⟨by simp [hch, DFA2.checkHaltAfter_pointer2], hch⟩

theorem DFA2.step_eq (m : DFA2) (h : m.isHalted = false)
    (hpre : (DFA2.halt { m with stepCount := m.stepCount + 1 }).2.2 = false) :
    DFA2.step m =
      DFA2.stepWith { m with stepCount := m.stepCount + 1 }
        (DFA2.currentCharacter m) (DFA2.activeCondition m) := by
  unfold DFA2.step
  rw [if_neg (by simp [h]), if_neg (by simp [hpre])]
  unfold DFA2.currentCharacter DFA2.activeCondition
  cases hc : getEpsilonTransitionConditionD m.transitionFunction m.currentState with
  | some c => simp [hc]
  | none => simp [hc]

theorem DPDA.checkHaltAfter_pointer (m3 : DPDA) (evs2 : List PEvent)
    (cond : ConditionP) (cmd : CommandP) :
    (DPDA.checkHaltAfter m3 evs2 cond cmd).1.pointerPosition = m3.pointerPosition := by
  unfold DPDA.checkHaltAfter
  split
  · exact DPDA.halt_pointer m3
  · rfl

theorem DPDA.checkHaltAfter_stack (m3 : DPDA) (evs2 : List PEvent)
    (cond : ConditionP) (cmd : CommandP) :
    (DPDA.checkHaltAfter m3 evs2 cond cmd).1.stack = m3.stack := by
  unfold DPDA.checkHaltAfter
  split
  · exact DPDA.halt_stack m3
  · rfl

theorem DPDA.stepFinish_stack (m : DPDA) (cs : State) (cond : ConditionP)
    (cmd : CommandP) (evs : List PEvent) :
    (DPDA.stepFinish m cs cond cmd evs).1.stack = m.stack := by
  unfold DPDA.stepFinish
  split <;> simp [DPDA.checkHaltAfter_stack]

theorem DPDA.stepFinish_pointer (m : DPDA) (cs : State) (cond : ConditionP)
    (cmd : CommandP) (evs : List PEvent) :
    (DPDA.stepFinish m cs cond cmd evs).1.pointerPosition =
      (if hasEpsilonTransitionP m.transitionFunction cs = false then
        m.pointerPosition + 1 else m.pointerPosition) := by
  unfold DPDA.stepFinish
  split <;> simp_all [DPDA.checkHaltAfter_pointer]

theorem DPDA.halt_event_mem (m : DPDA) (h : (DPDA.halt m).2.2 = true) :
    PEvent.halt m.currentState m.stepCount m.pointerPosition ∈ (DPDA.halt m).2.1 := by
  unfold DPDA.halt at h ⊢
  split_ifs at h ⊢ <;> simp_all

theorem DFA2.halt_event_mem2 (m : DFA2) (h : (DFA2.halt m).2.2 = true) :
    DEvent.halt m.currentState m.stepCount m.pointerPosition ∈ (DFA2.halt m).2.1 := by
  unfold DFA2.halt at h ⊢
  split_ifs at h ⊢ <;> simp_all

theorem DPDA.step_eq_of_cmd (m : DPDA) (command : CommandP)
    (h : m.isHalted = false)
    (hpre : (DPDA.halt { m with stepCount := m.stepCount + 1 }).2.2 = false)
    (hcmd : getCommandP m.transitionFunction (DPDA.activeCondition m) = some command) :
    DPDA.step m =
      (if (DPDA.activeCondition m).stackElement = EPSILON_STRING then
        (if command.action = CommandAction.stackChange ∧
            command.argument ≠ EPSILON_STRING then
          (if m.stackAlphabet.isCompatibleWith command.argument = false then
            Except.error ("Invalid stack string.", { m with stepCount := m.stepCount + 1 })
          else
            Except.ok (DPDA.stepFinish
              { m with stepCount := m.stepCount + 1,
                       stack := command.argument :: m.stack }
              m.currentState (DPDA.activeCondition m) command
              [PEvent.stackPushE command.argument]))
        else
          Except.ok (DPDA.stepFinish { m with stepCount := m.stepCount + 1 }
            m.currentState (DPDA.activeCondition m) command []))
      else
        (if command.action = CommandAction.stackChange ∧
            command.argument ≠ EPSILON_STRING then
          (if m.stackAlphabet.isCompatibleWith command.argument = false then
            Except.error ("Invalid stack string.",
              { m with stepCount := m.stepCount + 1, stack := m.stack.tail })
          else
            Except.ok (DPDA.stepFinish
              { m with stepCount := m.stepCount + 1,
                       stack := command.argument :: m.stack.tail }
              m.currentState (DPDA.activeCondition m) command
              [PEvent.stackPopE m.stack.head?, PEvent.stackPushE command.argument]))
        else
          Except.ok (DPDA.stepFinish
            { m with stepCount := m.stepCount + 1, stack := m.stack.tail }
            m.currentState (DPDA.activeCondition m) command
            [PEvent.stackPopE m.stack.head?]))) := by
  unfold DPDA.step
  rw [if_neg (by simp [h]), if_neg (by simp [hpre])]
  unfold DPDA.activeCondition at hcmd ⊢
  cases hc : getEpsilonTransitionConditionP m.transitionFunction m.currentState with
  | some c =>
      rw [hc] at hcmd
      simp only [hc]
      simp only at hcmd
      by_cases hse : c.stackElement = EPSILON_STRING <;>
        by_cases hpu : command.action = CommandAction.stackChange ∧
          command.argument ≠ EPSILON_STRING <;>
        simp [hcmd, hse, hpu]
  | none =>
      rw [hc] at hcmd
      simp only [hc]
      simp only at hcmd
      by_cases hse : Stack.peek m.stack = EPSILON_STRING
      · rw [hse] at hcmd
        by_cases hpu : command.action = CommandAction.stackChange ∧
            command.argument ≠ EPSILON_STRING <;>
          simp [hcmd, hse, hpu]
      · by_cases hpu : command.action = CommandAction.stackChange ∧
            command.argument ≠ EPSILON_STRING <;>
          simp [hcmd, hse, hpu]

theorem DPDA.step_eq_none (m : DPDA) (h : m.isHalted = false)
    (hpre : (DPDA.halt { m with stepCount := m.stepCount + 1 }).2.2 = false)
    (hcmd : getCommandP m.transitionFunction (DPDA.activeCondition m) = none) :
    DPDA.step m =
      Except.ok ({ m with stepCount := m.stepCount + 1,
                          isHalted := true, isAccepted := false },
        [PEvent.reject m.currentState (m.stepCount + 1) m.pointerPosition,
         PEvent.halt m.currentState (m.stepCount + 1) m.pointerPosition], true) := by
  unfold DPDA.step
  rw [if_neg (by simp [h]), if_neg (by simp [hpre])]
  unfold DPDA.activeCondition at hcmd
  cases hc : getEpsilonTransitionConditionP m.transitionFunction m.currentState with
  | some c =>
      rw [hc] at hcmd
      simp only at hcmd
      simp [hc, hcmd]
  | none =>
      rw [hc] at hcmd
      simp only at hcmd
      simp [hc, hcmd]

theorem DPDA.step_pointer_eps (m : DPDA) (c : ConditionP) (h : m.isHalted = false)
    (hpre : (DPDA.halt { m with stepCount := m.stepCount + 1 }).2.2 = false)
    (hc : getEpsilonTransitionConditionP m.transitionFunction m.currentState = some c) :
    (DPDA.resultConfig (DPDA.step m)).pointerPosition = m.pointerPosition := by
  have hhas : hasEpsilonTransitionP m.transitionFunction m.currentState = true := by
    unfold hasEpsilonTransitionP
    rw [hc]
    rfl
  cases hcmd : getCommandP m.transitionFunction (DPDA.activeCondition m) with
  | none =>
      rw [DPDA.step_eq_none m h hpre hcmd]
      rfl
  | some command =>
      rw [DPDA.step_eq_of_cmd m command h hpre hcmd]
      by_cases hse : (DPDA.activeCondition m).stackElement = EPSILON_STRING <;>
        by_cases hpu : command.action = CommandAction.stackChange ∧
          command.argument ≠ EPSILON_STRING <;>
        by_cases hco : m.stackAlphabet.isCompatibleWith command.argument = false <;>
        simp [hse, hpu, hco, DPDA.resultConfig, DPDA.stepFinish_pointer, hhas]

theorem DPDA.step_pointer_noeps (m : DPDA) (h : m.isHalted = false)
    (hpre : (DPDA.halt { m with stepCount := m.stepCount + 1 }).2.2 = false)
    (hc : getEpsilonTransitionConditionP m.transitionFunction m.currentState = none) :
    (DPDA.resultConfig (DPDA.step m)).pointerPosition = m.pointerPosition ∨
    (DPDA.resultConfig (DPDA.step m)).pointerPosition = m.pointerPosition + 1 := by
  have hhas : hasEpsilonTransitionP m.transitionFunction m.currentState = false := by
    unfold hasEpsilonTransitionP
    rw [hc]
    rfl
  cases hcmd : getCommandP m.transitionFunction (DPDA.activeCondition m) with
  | none =>
      left
      rw [DPDA.step_eq_none m h hpre hcmd]
      rfl
  | some command =>
      rw [DPDA.step_eq_of_cmd m command h hpre hcmd]
      by_cases hse : (DPDA.activeCondition m).stackElement = EPSILON_STRING
      · by_cases hpu : command.action = CommandAction.stackChange ∧
            command.argument ≠ EPSILON_STRING
        · by_cases hco : m.stackAlphabet.isCompatibleWith command.argument = false
          · left
            simp [hse, hpu, hco, DPDA.resultConfig]
          · right
            simp [hse, hpu, hco, DPDA.resultConfig, DPDA.stepFinish_pointer, hhas]
        · right
          simp [hse, hpu, DPDA.resultConfig, DPDA.stepFinish_pointer, hhas]
      · by_cases hpu : command.action = CommandAction.stackChange ∧
            command.argument ≠ EPSILON_STRING
        · by_cases hco : m.stackAlphabet.isCompatibleWith command.argument = false
          · left
            simp [hse, hpu, hco, DPDA.resultConfig]
          · right
            simp [hse, hpu, hco, DPDA.resultConfig, DPDA.stepFinish_pointer, hhas]
        · right
          simp [hse, hpu, DPDA.resultConfig, DPDA.stepFinish_pointer, hhas]

/-- A concrete state `qa`, the target of the epsilon transition in the C4
counterexample machine. -/
def qa : State := { label := "qa", isAccepting := false }

/-- A concrete state `qb`, the target of the symbol transition in the C4
counterexample machine. -/
def qb : State := { label := "qb", isAccepting := false }

/-- A concrete `src/src/DFA.js` DFA whose initial state has both a registered
epsilon transition (to `qa`) and a matching symbol transition (to `qb`). -/
def mC4 : DFA1 :=
  { DFA1.mk0 q0 with
      transitionFunction :=
        [({ state := q0, character := EPSILON_STRING }, { state := qa }),
         ({ state := q0, character := "a" }, { state := qb })],
      tape := ["a"] }

/-- Counterexample to C4 as stated: in the `src/src/DFA.js` DFA variant, a
non-halting step on a state with a registered epsilon transition takes the
symbol-consuming transition (landing in `qb`, not the epsilon target `qa`)
and advances the cursor. -/
theorem claimC4_counterexample :
    mC4.isHalted = false ∧
    hasEpsilonTransitionD mC4.transitionFunction mC4.currentState = true ∧
    (DFA1.step mC4).2.2 = false ∧
    (DFA1.step mC4).1.pointerPosition = mC4.pointerPosition + 1 ∧
    (DFA1.step mC4).1.currentState = qb := by
  decide

/-- C4 amended: for the epsilon-aware DFA variant (`src/unnamed/part_000`) and
the DPDA, a non-halting step on a state with a registered epsilon transition
uses the stored epsilon condition as the active condition — even if a
symbol-consuming transition also matches — and does not advance the cursor;
the cursor moves at most one cell per step and only on steps that consume the
(per the data model non-epsilon) tape symbol at the cursor.  The
`src/src/DFA.js` DFA variant instead ignores epsilon transitions entirely
during `step`. -/
theorem claimC4 :
    (∀ (m : DFA2) (c : ConditionD), m.isHalted = false →
      (DFA2.halt { m with stepCount := m.stepCount + 1 }).2.2 = false →
      getEpsilonTransitionConditionD m.transitionFunction m.currentState = some c →
      DFA2.activeCondition m = c ∧
      (DFA2.step m).1.pointerPosition = m.pointerPosition) ∧
    (∀ m : DFA2, m.isHalted = false →
      (DFA2.step m).1.pointerPosition = m.pointerPosition ∨
      ((DFA2.step m).1.pointerPosition = m.pointerPosition + 1 ∧
        DFA2.currentCharacter m ≠ EPSILON_STRING)) ∧
    (∀ (m : DPDA) (c : ConditionP), m.isHalted = false →
      (DPDA.halt { m with stepCount := m.stepCount + 1 }).2.2 = false →
      getEpsilonTransitionConditionP m.transitionFunction m.currentState = some c →
      DPDA.activeCondition m = c ∧
      (DPDA.resultConfig (DPDA.step m)).pointerPosition = m.pointerPosition) ∧
    (∀ m : DPDA, m.isHalted = false →
      (∀ s ∈ m.tape, s ≠ EPSILON_STRING) →
      (DPDA.resultConfig (DPDA.step m)).pointerPosition = m.pointerPosition ∨
      ((DPDA.resultConfig (DPDA.step m)).pointerPosition = m.pointerPosition + 1 ∧
        DPDA.currentCharacter m ≠ EPSILON_STRING)) := by
  refine ⟨?_, ?_, ?_, ?_⟩
  · intro m c h hpre hc
    refine ⟨?_, ?_⟩
    · unfold DFA2.activeCondition
      rw [hc]
    · rw [DFA2.step_eq m h hpre]
      have hch : DFA2.currentCharacter m = EPSILON_STRING := by
        unfold DFA2.currentCharacter
        rw [hc]
      rw [hch]
      exact DFA2.stepWith_pointer_eps _ _
  · intro m h
    by_cases hpre : (DFA2.halt { m with stepCount := m.stepCount + 1 }).2.2 = true
    · left
      have hstep : DFA2.step m =
          ((DFA2.halt { m with stepCount := m.stepCount + 1 }).1,
           (DFA2.halt { m with stepCount := m.stepCount + 1 }).2.1, true) := by
        unfold DFA2.step
        rw [if_neg (by simp [h])]
        simp [hpre]
      rw [hstep]
      exact DFA2.halt_pointer2 _
    · have hpre' : (DFA2.halt { m with stepCount := m.stepCount + 1 }).2.2 = false :=
        Bool.eq_false_iff.mpr hpre
      rw [DFA2.step_eq m h hpre']
      rcases DFA2.stepWith_pointer { m with stepCount := m.stepCount + 1 }
          (DFA2.currentCharacter m) (DFA2.activeCondition m) with h1 | h2
      · exact Or.inl h1
      · exact Or.inr h2
  · intro m c h hpre hc
    refine ⟨?_, DPDA.step_pointer_eps m c h hpre hc⟩
    unfold DPDA.activeCondition
    rw [hc]
  · intro m h htape
    by_cases hpre : (DPDA.halt { m with stepCount := m.stepCount + 1 }).2.2 = true
    · left
      have hstep : DPDA.step m =
          Except.ok ((DPDA.halt { m with stepCount := m.stepCount + 1 }).1,
            (DPDA.halt { m with stepCount := m.stepCount + 1 }).2.1, true) := by
        unfold DPDA.step
        rw [if_neg (by simp [h])]
        simp [hpre]
      rw [hstep]
      exact DPDA.halt_pointer _
    · have hpre' : (DPDA.halt { m with stepCount := m.stepCount + 1 }).2.2 = false :=
        Bool.eq_false_iff.mpr hpre
      cases hc : getEpsilonTransitionConditionP m.transitionFunction m.currentState with
      | some c => exact Or.inl (DPDA.step_pointer_eps m c h hpre' hc)
      | none =>
          rcases DPDA.step_pointer_noeps m h hpre' hc with h1 | h2
          · exact Or.inl h1
          · refine Or.inr ⟨h2, ?_⟩
            have hhas : hasEpsilonTransitionP m.transitionFunction m.currentState = false := by
              unfold hasEpsilonTransitionP
              rw [hc]
              rfl
            have hnp : ¬ m.pointerPosition ≥ m.tape.length := by
              intro hge
              apply hpre
              rw [DPDA.halt_flag_iff]
              exact ⟨hge, Or.inl hhas⟩
            have hlt : m.pointerPosition < m.tape.length := Nat.lt_of_not_le hnp
            have hchar : DPDA.currentCharacter m = Tape.charAt m.tape m.pointerPosition := by
              unfold DPDA.currentCharacter
              rw [hc]
            rw [hchar]
            have hmem : Tape.charAt m.tape m.pointerPosition ∈ m.tape := by
              unfold Tape.charAt
              rw [List.getD_eq_getElem m.tape "" hlt]
              exact List.getElem_mem hlt
            exact htape _ hmem

/-- A concrete epsilon-aware DFA whose initial state has both an epsilon
transition and a matching symbol transition, used by the C4 witness. -/
def mC4w2 : DFA2 :=
  { DFA2.mk0 q0 with
      transitionFunction :=
        [({ state := q0, character := EPSILON_STRING }, { state := q1 }),
         ({ state := q0, character := "a" }, { state := qb })],
      tape := ["a"] }

/-- The stored epsilon condition of `mC4w2`. -/
def cC4w : ConditionD := { state := q0, character := EPSILON_STRING }

/-- A concrete DPDA whose initial state has an epsilon transition, used by the
C4 witness. -/
def mC4wp : DPDA :=
  { sampleDPDA with
      transitionFunction :=
        [({ state := q0, character := EPSILON_STRING, stackElement := "Z" },
          { state := q1, action := CommandAction.stackChange,
            argument := EPSILON_STRING })],
      tape := ["a"] }

/-- The stored epsilon condition of `mC4wp`. -/
def cC4wp : ConditionP :=
  { state := q0, character := EPSILON_STRING, stackElement := "Z" }

/-- Witness for C4 at concrete machines: the epsilon-aware DFA and the DPDA
each take the stored epsilon condition without advancing the cursor, and
cursor movement is as characterized. -/
theorem claimC4_witness :
    (DFA2.activeCondition mC4w2 = cC4w ∧
      (DFA2.step mC4w2).1.pointerPosition = mC4w2.pointerPosition) ∧
    ((DFA2.step mC4w2).1.pointerPosition = mC4w2.pointerPosition ∨
      ((DFA2.step mC4w2).1.pointerPosition = mC4w2.pointerPosition + 1 ∧
        DFA2.currentCharacter mC4w2 ≠ EPSILON_STRING)) ∧
    (DPDA.activeCondition mC4wp = cC4wp ∧
      (DPDA.resultConfig (DPDA.step mC4wp)).pointerPosition = mC4wp.pointerPosition) ∧
    ((DPDA.resultConfig (DPDA.step { sampleDPDA with tape := ["b"] })).pointerPosition =
        ({ sampleDPDA with tape := ["b"] } : DPDA).pointerPosition ∨
      ((DPDA.resultConfig (DPDA.step { sampleDPDA with tape := ["b"] })).pointerPosition =
        ({ sampleDPDA with tape := ["b"] } : DPDA).pointerPosition + 1 ∧
        DPDA.currentCharacter { sampleDPDA with tape := ["b"] } ≠ EPSILON_STRING)) :=
  ⟨claimC4.1 mC4w2 cC4w rfl (by decide) rfl,
   claimC4.2.1 mC4w2 rfl,
   claimC4.2.2.1 mC4wp cC4wp rfl (by rfl) rfl,
   claimC4.2.2.2 { sampleDPDA with tape := ["b"] } rfl (by decide)⟩

/-- C10: for the DPDA, when the current state has an epsilon transition, a
non-halting step uses the stored epsilon condition as the active condition
without comparing its stack-element field to the actual top of the stack, and
the pop is gated solely on that stored field: one symbol is removed exactly
when the stored condition's stack element is not epsilon, whatever the actual
topmost stack symbol is. -/
theorem claimC10 (m : DPDA) (c : ConditionP)
    (h : m.isHalted = false)
    (hpre : (DPDA.halt { m with stepCount := m.stepCount + 1 }).2.2 = false)
    (hc : getEpsilonTransitionConditionP m.transitionFunction m.currentState = some c) :
    DPDA.activeCondition m = c ∧
    (∀ command : CommandP, getCommandP m.transitionFunction c = some command →
      (DPDA.resultConfig (DPDA.step m)).stack =
        (if command.action = CommandAction.stackChange ∧
            command.argument ≠ EPSILON_STRING ∧
            m.stackAlphabet.isCompatibleWith command.argument = true
         then [command.argument] else []) ++
        (if c.stackElement = EPSILON_STRING then m.stack else m.stack.tail)) := by
  have hact : DPDA.activeCondition m = c := by
    unfold DPDA.activeCondition
    rw [hc]
  refine ⟨hact, fun command hcmd => ?_⟩
  have hcmd' : getCommandP m.transitionFunction (DPDA.activeCondition m) = some command := by
    rw [hact]
    exact hcmd
  rw [DPDA.step_eq_of_cmd m command h hpre hcmd', hact]
  by_cases hse : c.stackElement = EPSILON_STRING <;>
    by_cases hpu : command.action = CommandAction.stackChange ∧
      command.argument ≠ EPSILON_STRING <;>
    cases hco : m.stackAlphabet.isCompatibleWith command.argument <;>
    simp [hse, hpu, hco, DPDA.resultConfig, DPDA.stepFinish_stack]

/-- A concrete DPDA whose stored epsilon condition declares stack element `Z`
while the actual stack top is the different symbol `X`, used by the C10
witness. -/
def mC10 : DPDA :=
  { sampleDPDA with
      transitionFunction :=
        [({ state := q0, character := EPSILON_STRING, stackElement := "Z" },
          { state := q1, action := CommandAction.stackChange, argument := "AB" })],
      tape := ["a"], stack := ["X", "Z"] }

/-- The stored epsilon condition of `mC10`. -/
def cC10 : ConditionP :=
  { state := q0, character := EPSILON_STRING, stackElement := "Z" }

/-- Witness for C10 at `mC10`: the stored epsilon condition is the active one
although its stack element `Z` differs from the actual top `X`, and the step
pops the actual top (gated on the stored field) before pushing `AB`. -/
theorem claimC10_witness :
    DPDA.activeCondition mC10 = cC10 ∧
    (DPDA.resultConfig (DPDA.step mC10)).stack = ["AB", "Z"] := by
  have hmain := claimC10 mC10 cC10 rfl (by rfl) rfl
  refine ⟨hmain.1, ?_⟩
  have h2 := hmain.2
    { state := q1, action := CommandAction.stackChange, argument := "AB" } rfl
  simpa using h2

theorem DFA2.checkHaltAfter_spec2 (m3 : DFA2) (evs2 : List DEvent)
    (hg : (DFA2.halt m3).2.2 = true) :
    (DFA2.checkHaltAfter m3 evs2).1 = (DFA2.halt m3).1 ∧
    (DFA2.checkHaltAfter m3 evs2).2.2 = true ∧
    DEvent.halt m3.currentState m3.stepCount m3.pointerPosition ∈
      (DFA2.checkHaltAfter m3 evs2).2.1 := by
  unfold DFA2.checkHaltAfter
  rw [if_pos hg]
  exact ⟨rfl, rfl, List.mem_append_right _ (DFA2.halt_event_mem2 m3 hg)⟩

theorem DPDA.checkHaltAfter_spec (m3 : DPDA) (evs2 : List PEvent)
    (cond : ConditionP) (cmd : CommandP) (hg : (DPDA.halt m3).2.2 = true) :
    (DPDA.checkHaltAfter m3 evs2 cond cmd).1 = (DPDA.halt m3).1 ∧
    (DPDA.checkHaltAfter m3 evs2 cond cmd).2.2 = true ∧
    PEvent.halt m3.currentState m3.stepCount m3.pointerPosition ∈
      (DPDA.checkHaltAfter m3 evs2 cond cmd).2.1 := by
  unfold DPDA.checkHaltAfter
  rw [if_pos hg]
  exact ⟨rfl, rfl, List.mem_append_right _ (DPDA.halt_event_mem m3 hg)⟩

/-- The configuration just before `Machine.DPDA.prototype.step`'s
post-transition halting re-check: cursor advanced when the pre-transition
current state has no epsilon transition, current state moved to the command's
target. -/
def DPDA.finishConfig (m : DPDA) (cs : State) (cmd : CommandP) : DPDA :=
  { m with
      pointerPosition :=
        if hasEpsilonTransitionP m.transitionFunction cs = false then
          m.pointerPosition + 1
        else m.pointerPosition,
      currentState := cmd.state }

theorem DPDA.stepFinish_spec (m : DPDA) (cs : State) (cond : ConditionP)
    (cmd : CommandP) (evs : List PEvent)
    (hg : (DPDA.halt (DPDA.finishConfig m cs cmd)).2.2 = true) :
    (DPDA.stepFinish m cs cond cmd evs).1 = (DPDA.halt (DPDA.finishConfig m cs cmd)).1 ∧
    (DPDA.stepFinish m cs cond cmd evs).2.2 = true ∧
    PEvent.halt cmd.state (DPDA.finishConfig m cs cmd).stepCount
      (DPDA.finishConfig m cs cmd).pointerPosition ∈
        (DPDA.stepFinish m cs cond cmd evs).2.1 := by
  by_cases hE : hasEpsilonTransitionP m.transitionFunction cs = false
  · have hfc : DPDA.finishConfig m cs cmd =
        { m with pointerPosition := m.pointerPosition + 1,
                 currentState := cmd.state } := by
      unfold DPDA.finishConfig
      rw [if_pos hE]
    rw [hfc] at hg ⊢
    unfold DPDA.stepFinish
    rw [if_pos hE]
    exact DPDA.checkHaltAfter_spec _ _ _ _ hg
  · have hfc : DPDA.finishConfig m cs cmd = { m with currentState := cmd.state } := by
      unfold DPDA.finishConfig
      rw [if_neg hE]
    rw [hfc] at hg ⊢
    unfold DPDA.stepFinish
    rw [if_neg hE]
    exact DPDA.checkHaltAfter_spec _ _ _ _ hg

/-- The configuration of the epsilon-aware DFA (`src/unnamed/part_000`) after
a step's cursor advance and state change, just before the post-transition
halting re-check. -/
def DFA2.postConfig (m : DFA2) (command : CommandD) : DFA2 :=
  { m with
      stepCount := m.stepCount + 1,
      pointerPosition :=
        if DFA2.currentCharacter m = EPSILON_STRING then m.pointerPosition
        else m.pointerPosition + 1,
      currentState := command.state }

/-- The configuration of the DPDA after a step's pop, push, cursor advance and
state change, just before the post-transition halting re-check. -/
def DPDA.postConfig (m : DPDA) (command : CommandP) : DPDA :=
  { m with
      stepCount := m.stepCount + 1,
      stack :=
        if command.action = CommandAction.stackChange ∧
            command.argument ≠ EPSILON_STRING then
          command.argument ::
            (if (DPDA.activeCondition m).stackElement = EPSILON_STRING then m.stack
             else m.stack.tail)
        else
          (if (DPDA.activeCondition m).stackElement = EPSILON_STRING then m.stack
           else m.stack.tail),
      pointerPosition :=
        if hasEpsilonTransitionP m.transitionFunction m.currentState = false then
          m.pointerPosition + 1
        else m.pointerPosition,
      currentState := command.state }

/-- The halted flag returned to the caller by a `DPDA.step` result (`false`
when the stack-alphabet error propagated instead of a return value). -/
def DPDA.resultHalted : Except (String × DPDA) (DPDA × List PEvent × Bool) → Bool
  | Except.error _ => false
  | Except.ok r => r.2.2

/-- The callback events fired by a normally returning `DPDA.step` result. -/
def DPDA.resultEvents : Except (String × DPDA) (DPDA × List PEvent × Bool) → List PEvent
  | Except.error _ => []
  | Except.ok r => r.2.1

/-- A concrete `src/src/DFA.js` DFA that refutes C1: one transition consuming
the single tape symbol. -/
def mC1 : DFA1 :=
  { DFA1.mk0 q0 with
      transitionFunction := [({ state := q0, character := "1" }, { state := q1 })],
      tape := ["1"] }

/-- Counterexample to C1 as stated: in the `src/src/DFA.js` DFA variant, a
step that applies a transition which exhausts the tape (so the halting
predicate is due afterwards, there being no epsilon transition either) still
returns not-halted with the halted flag clear — the halting predicate is not
re-evaluated within that same `step()` call. -/
theorem claimC1_counterexample :
    mC1.isHalted = false ∧
    getCommandD mC1.transitionFunction (DFA1.activeCondition mC1) =
      some { state := q1 } ∧
    (DFA1.step mC1).2.2 = false ∧
    (DFA1.step mC1).1.isHalted = false ∧
    (DFA1.step mC1).1.pointerPosition ≥ (DFA1.step mC1).1.tape.length ∧
    hasEpsilonTransitionD (DFA1.step mC1).1.transitionFunction
      (DFA1.step mC1).1.currentState = false := by
  decide

/-- C1 amended: for the epsilon-aware DFA variant (`src/unnamed/part_000`) and
the DPDA, a step that applies a transition (without halting beforehand, and —
for the DPDA — without a stack-alphabet error) re-evaluates the halting
predicate on the post-transition configuration, and when it is due the
machine is finalized within that same step: the returned configuration is the
`halt` method's output, the halted flag is set, acceptance is decided, the
step returns halted, and the halt callback fires.  The `src/src/DFA.js` DFA
variant performs no such re-check. -/
theorem claimC1 :
    (∀ (m : DFA2) (command : CommandD), m.isHalted = false →
      (DFA2.halt { m with stepCount := m.stepCount + 1 }).2.2 = false →
      getCommandD m.transitionFunction (DFA2.activeCondition m) = some command →
      (DFA2.halt (DFA2.postConfig m command)).2.2 = true →
      (DFA2.step m).1 = (DFA2.halt (DFA2.postConfig m command)).1 ∧
      (DFA2.step m).2.2 = true ∧
      (DFA2.halt (DFA2.postConfig m command)).1.isHalted = true ∧
      (DFA2.halt (DFA2.postConfig m command)).1.isAccepted =
        command.state.isAccepting ∧
      DEvent.halt command.state (m.stepCount + 1)
        (DFA2.postConfig m command).pointerPosition ∈ (DFA2.step m).2.1) ∧
    (∀ (m : DPDA) (command : CommandP), m.isHalted = false →
      (DPDA.halt { m with stepCount := m.stepCount + 1 }).2.2 = false →
      getCommandP m.transitionFunction (DPDA.activeCondition m) = some command →
      (command.action = CommandAction.stackChange ∧
        command.argument ≠ EPSILON_STRING →
        m.stackAlphabet.isCompatibleWith command.argument = true) →
      (DPDA.halt (DPDA.postConfig m command)).2.2 = true →
      DPDA.resultConfig (DPDA.step m) = (DPDA.halt (DPDA.postConfig m command)).1 ∧
      DPDA.resultHalted (DPDA.step m) = true ∧
      (DPDA.halt (DPDA.postConfig m command)).1.isHalted = true ∧
      PEvent.halt command.state (m.stepCount + 1)
        (DPDA.postConfig m command).pointerPosition ∈
          DPDA.resultEvents (DPDA.step m)) := by
  constructor
  · intro m command h hpre hcmd hg
    have hstep := DFA2.step_eq m h hpre
    by_cases hch : DFA2.currentCharacter m = EPSILON_STRING
    · have hpost : DFA2.postConfig m command =
          { m with stepCount := m.stepCount + 1, currentState := command.state } := by
        unfold DFA2.postConfig
        rw [if_pos hch]
      have hstep2 : DFA2.step m = DFA2.checkHaltAfter
          { m with stepCount := m.stepCount + 1, currentState := command.state }
          [DEvent.stepE (DFA2.activeCondition m) command (m.stepCount + 1)
            m.pointerPosition] := by
        rw [hstep]
        unfold DFA2.stepWith
        simp [hcmd, hch]
      rw [hpost] at hg ⊢
      rw [hstep2]
      have hspec := DFA2.checkHaltAfter_spec2
        { m with stepCount := m.stepCount + 1, currentState := command.state }
        [DEvent.stepE (DFA2.activeCondition m) command (m.stepCount + 1)
          m.pointerPosition] hg
      exact ⟨hspec.1, hspec.2.1, (DFA2.halt_fired _ hg).1,
             (DFA2.halt_fired _ hg).2, hspec.2.2⟩
    · have hpost : DFA2.postConfig m command =
          { m with stepCount := m.stepCount + 1,
                   pointerPosition := m.pointerPosition + 1,
                   currentState := command.state } := by
        unfold DFA2.postConfig
        rw [if_neg hch]
      have hstep2 : DFA2.step m = DFA2.checkHaltAfter
          { m with stepCount := m.stepCount + 1,
                   pointerPosition := m.pointerPosition + 1,
                   currentState := command.state }
          [DEvent.pointerChange (m.pointerPosition + 1),
           DEvent.stepE (DFA2.activeCondition m) command (m.stepCount + 1)
             (m.pointerPosition + 1)] := by
        rw [hstep]
        unfold DFA2.stepWith
        simp [hcmd, hch]
      rw [hpost] at hg ⊢
      rw [hstep2]
      have hspec := DFA2.checkHaltAfter_spec2
        { m with stepCount := m.stepCount + 1,
                 pointerPosition := m.pointerPosition + 1,
                 currentState := command.state }
        [DEvent.pointerChange (m.pointerPosition + 1),
         DEvent.stepE (DFA2.activeCondition m) command (m.stepCount + 1)
           (m.pointerPosition + 1)] hg
      exact ⟨hspec.1, hspec.2.1, (DFA2.halt_fired _ hg).1,
             (DFA2.halt_fired _ hg).2, hspec.2.2⟩
  · intro m command h hpre hcmd hcompat hg
    have hstep := DPDA.step_eq_of_cmd m command h hpre hcmd
    by_cases hse : (DPDA.activeCondition m).stackElement = EPSILON_STRING
    · by_cases hpu : command.action = CommandAction.stackChange ∧
          command.argument ≠ EPSILON_STRING
      · have hco : m.stackAlphabet.isCompatibleWith command.argument = true :=
          hcompat hpu
        have hstep2 : DPDA.step m = Except.ok (DPDA.stepFinish
            { m with stepCount := m.stepCount + 1,
                     stack := command.argument :: m.stack }
            m.currentState (DPDA.activeCondition m) command
            [PEvent.stackPushE command.argument]) := by
          rw [hstep, if_pos hse, if_pos hpu, if_neg (by simp [hco])]
        have hpost : DPDA.postConfig m command = DPDA.finishConfig
            { m with stepCount := m.stepCount + 1,
                     stack := command.argument :: m.stack }
            m.currentState command := by
          simp [DPDA.postConfig, DPDA.finishConfig, hse, hpu]
        rw [hpost] at hg ⊢
        rw [hstep2]
        have hspec := DPDA.stepFinish_spec
          { m with stepCount := m.stepCount + 1,
                   stack := command.argument :: m.stack }
          m.currentState (DPDA.activeCondition m) command
          [PEvent.stackPushE command.argument] hg
        exact ⟨hspec.1, hspec.2.1, DPDA.halt_isHalted_of_fired _ hg, hspec.2.2⟩
      · have hstep2 : DPDA.step m = Except.ok (DPDA.stepFinish
            { m with stepCount := m.stepCount + 1 }
            m.currentState (DPDA.activeCondition m) command []) := by
          rw [hstep, if_pos hse, if_neg hpu]
        have hpost : DPDA.postConfig m command = DPDA.finishConfig
            { m with stepCount := m.stepCount + 1 } m.currentState command := by
          simp [DPDA.postConfig, DPDA.finishConfig, hse, hpu]
        rw [hpost] at hg ⊢
        rw [hstep2]
        have hspec := DPDA.stepFinish_spec
          { m with stepCount := m.stepCount + 1 }
          m.currentState (DPDA.activeCondition m) command [] hg
        exact ⟨hspec.1, hspec.2.1, DPDA.halt_isHalted_of_fired _ hg, hspec.2.2⟩
    · by_cases hpu : command.action = CommandAction.stackChange ∧
          command.argument ≠ EPSILON_STRING
      · have hco : m.stackAlphabet.isCompatibleWith command.argument = true :=
          hcompat hpu
        have hstep2 : DPDA.step m = Except.ok (DPDA.stepFinish
            { m with stepCount := m.stepCount + 1,
                     stack := command.argument :: m.stack.tail }
            m.currentState (DPDA.activeCondition m) command
            [PEvent.stackPopE m.stack.head?,
             PEvent.stackPushE command.argument]) := by
          rw [hstep, if_neg hse, if_pos hpu, if_neg (by simp [hco])]
        have hpost : DPDA.postConfig m command = DPDA.finishConfig
            { m with stepCount := m.stepCount + 1,
                     stack := command.argument :: m.stack.tail }
            m.currentState command := by
          simp [DPDA.postConfig, DPDA.finishConfig, hse, hpu]
        rw [hpost] at hg ⊢
        rw [hstep2]
        have hspec := DPDA.stepFinish_spec
          { m with stepCount := m.stepCount + 1,
                   stack := command.argument :: m.stack.tail }
          m.currentState (DPDA.activeCondition m) command
          [PEvent.stackPopE m.stack.head?, PEvent.stackPushE command.argument] hg
        exact ⟨hspec.1, hspec.2.1, DPDA.halt_isHalted_of_fired _ hg, hspec.2.2⟩
      · have hstep2 : DPDA.step m = Except.ok (DPDA.stepFinish
            { m with stepCount := m.stepCount + 1, stack := m.stack.tail }
            m.currentState (DPDA.activeCondition m) command
            [PEvent.stackPopE m.stack.head?]) := by
          rw [hstep, if_neg hse, if_neg hpu]
        have hpost : DPDA.postConfig m command = DPDA.finishConfig
            { m with stepCount := m.stepCount + 1, stack := m.stack.tail }
            m.currentState command := by
          simp [DPDA.postConfig, DPDA.finishConfig, hse, hpu]
        rw [hpost] at hg ⊢
        rw [hstep2]
        have hspec := DPDA.stepFinish_spec
          { m with stepCount := m.stepCount + 1, stack := m.stack.tail }
          m.currentState (DPDA.activeCondition m) command
          [PEvent.stackPopE m.stack.head?] hg
        exact ⟨hspec.1, hspec.2.1, DPDA.halt_isHalted_of_fired _ hg, hspec.2.2⟩

/-- A concrete epsilon-aware DFA whose single transition exhausts the tape,
used by the C1 witness. -/
def mC1w2 : DFA2 :=
  { DFA2.mk0 q0 with
      transitionFunction := [({ state := q0, character := "a" }, { state := q1 })],
      tape := ["a"] }

/-- A concrete DPDA whose single transition exhausts the tape and empties the
stack, used by the C1 witness. -/
def mC1wp : DPDA :=
  { sampleDPDA with
      transitionFunction :=
        [({ state := q0, character := "a", stackElement := "Z" },
          { state := q1, action := CommandAction.stackChange,
            argument := EPSILON_STRING })],
      tape := ["a"] }

/-- The command taken by `mC1wp`'s single transition. -/
def cC1cmd : CommandP :=
  { state := q1, action := CommandAction.stackChange, argument := EPSILON_STRING }

/-- Witness for C1 at concrete machines whose one transition makes the
halting predicate due: both engines finalize within the same step. -/
theorem claimC1_witness :
    ((DFA2.step mC1w2).1 = (DFA2.halt (DFA2.postConfig mC1w2 { state := q1 })).1 ∧
      (DFA2.step mC1w2).2.2 = true ∧
      (DFA2.halt (DFA2.postConfig mC1w2 { state := q1 })).1.isHalted = true ∧
      (DFA2.halt (DFA2.postConfig mC1w2 { state := q1 })).1.isAccepted =
        ({ state := q1 } : CommandD).state.isAccepting ∧
      DEvent.halt ({ state := q1 } : CommandD).state (mC1w2.stepCount + 1)
        (DFA2.postConfig mC1w2 { state := q1 }).pointerPosition ∈
          (DFA2.step mC1w2).2.1) ∧
    (DPDA.resultConfig (DPDA.step mC1wp) =
        (DPDA.halt (DPDA.postConfig mC1wp cC1cmd)).1 ∧
      DPDA.resultHalted (DPDA.step mC1wp) = true ∧
      (DPDA.halt (DPDA.postConfig mC1wp cC1cmd)).1.isHalted = true ∧
      PEvent.halt cC1cmd.state (mC1wp.stepCount + 1)
        (DPDA.postConfig mC1wp cC1cmd).pointerPosition ∈
          DPDA.resultEvents (DPDA.step mC1wp)) :=
  ⟨claimC1.1 mC1w2 { state := q1 } rfl (by decide) rfl (by decide),
   claimC1.2 mC1wp cC1cmd rfl (by rfl) rfl (by decide) (by rfl)⟩

theorem DFA1.step_preserves1 (m : DFA1)
    (inv : m.isAccepted = true → m.isHalted = true) :
    (DFA1.step m).1.isAccepted = true → (DFA1.step m).1.isHalted = true := by
  by_cases h : m.isHalted = true
  · have hs : DFA1.step m = (m, [], true) := by
      unfold DFA1.step
      simp [h]
    rw [hs]
    exact inv
  · unfold DFA1.step
    rw [if_neg h]
    by_cases hp : m.pointerPosition ≥ m.tape.length
    · by_cases ha : m.currentState.isAccepting = true
      · simp [hp, ha]
      · simp [hp, ha]
    · cases hcmd : getCommandD m.transitionFunction
          { state := m.currentState,
            character := Tape.charAt m.tape m.pointerPosition } with
      | none => simp [hp, hcmd]
      | some cmd => simpa [hp, hcmd] using inv

theorem DFA1.run_preserves1 (m : DFA1) (n : Nat)
    (inv : m.isAccepted = true → m.isHalted = true) :
    (DFA1.run m n).1.isAccepted = true → (DFA1.run m n).1.isHalted = true := by
  induction n generalizing m with
  | zero => simpa [DFA1.run] using inv
  | succ k ih =>
      unfold DFA1.run
      by_cases hr : (DFA1.step m).2.2 = true
      · simpa [hr] using DFA1.step_preserves1 m inv
      · simpa [hr] using ih (DFA1.step m).1 (DFA1.step_preserves1 m inv)

theorem DFA2.checkHaltAfter_preserves2 (m3 : DFA2) (evs2 : List DEvent)
    (inv : m3.isAccepted = true → m3.isHalted = true) :
    (DFA2.checkHaltAfter m3 evs2).1.isAccepted = true →
    (DFA2.checkHaltAfter m3 evs2).1.isHalted = true := by
  unfold DFA2.checkHaltAfter
  split_ifs with hf
  · exact fun _ => (DFA2.halt_fired _ hf).1
  · exact inv

theorem DFA2.stepWith_preserves (m : DFA2) (ch : String) (c : ConditionD)
    (inv : m.isAccepted = true → m.isHalted = true) :
    (DFA2.stepWith m ch c).1.isAccepted = true →
    (DFA2.stepWith m ch c).1.isHalted = true := by
  unfold DFA2.stepWith
  cases hcmd : getCommandD m.transitionFunction c with
  | none => simp
  | some command =>
      dsimp only
      by_cases hch : ch = EPSILON_STRING
      · rw [if_pos hch]
        exact DFA2.checkHaltAfter_preserves2 _ _ inv
      · rw [if_neg hch]
        exact DFA2.checkHaltAfter_preserves2 _ _ inv

theorem DFA2.step_preserves2 (m : DFA2)
    (inv : m.isAccepted = true → m.isHalted = true) :
    (DFA2.step m).1.isAccepted = true → (DFA2.step m).1.isHalted = true := by
  by_cases h : m.isHalted = true
  · have hs : DFA2.step m = (m, [], true) := by
      unfold DFA2.step
      simp [h]
    rw [hs]
    exact inv
  · have h' : m.isHalted = false := Bool.eq_false_iff.mpr h
    by_cases hpre : (DFA2.halt { m with stepCount := m.stepCount + 1 }).2.2 = true
    · have hs : DFA2.step m =
          ((DFA2.halt { m with stepCount := m.stepCount + 1 }).1,
           (DFA2.halt { m with stepCount := m.stepCount + 1 }).2.1, true) := by
        unfold DFA2.step
        rw [if_neg (by simp [h'])]
        simp [hpre]
      rw [hs]
      exact fun _ => (DFA2.halt_fired _ hpre).1
    · have hpre' : (DFA2.halt { m with stepCount := m.stepCount + 1 }).2.2 = false :=
        Bool.eq_false_iff.mpr hpre
      rw [DFA2.step_eq m h' hpre']
      exact DFA2.stepWith_preserves _ _ _ inv

theorem DFA2.run_preserves2 (m : DFA2) (n : Nat)
    (inv : m.isAccepted = true → m.isHalted = true) :
    (DFA2.run m n).1.isAccepted = true → (DFA2.run m n).1.isHalted = true := by
  induction n generalizing m with
  | zero => simpa [DFA2.run] using inv
  | succ k ih =>
      unfold DFA2.run
      by_cases hr : (DFA2.step m).2.2 = true
      · simpa [hr] using DFA2.step_preserves2 m inv
      · simpa [hr] using ih (DFA2.step m).1 (DFA2.step_preserves2 m inv)

theorem DPDA.checkHaltAfter_preserves (m3 : DPDA) (evs2 : List PEvent)
    (cond : ConditionP) (cmd : CommandP)
    (inv : m3.isAccepted = true → m3.isHalted = true) :
    (DPDA.checkHaltAfter m3 evs2 cond cmd).1.isAccepted = true →
    (DPDA.checkHaltAfter m3 evs2 cond cmd).1.isHalted = true := by
  unfold DPDA.checkHaltAfter
  split_ifs with hf
  · exact fun _ => DPDA.halt_isHalted_of_fired _ hf
  · exact inv

theorem DPDA.stepFinish_preserves (m : DPDA) (cs : State) (cond : ConditionP)
    (cmd : CommandP) (evs : List PEvent)
    (inv : m.isAccepted = true → m.isHalted = true) :
    (DPDA.stepFinish m cs cond cmd evs).1.isAccepted = true →
    (DPDA.stepFinish m cs cond cmd evs).1.isHalted = true := by
  unfold DPDA.stepFinish
  split_ifs with hE
  · exact DPDA.checkHaltAfter_preserves _ _ _ _ inv
  · exact DPDA.checkHaltAfter_preserves _ _ _ _ inv

theorem DPDA.step_preserves (m : DPDA)
    (inv : m.isAccepted = true → m.isHalted = true) :
    (DPDA.resultConfig (DPDA.step m)).isAccepted = true →
    (DPDA.resultConfig (DPDA.step m)).isHalted = true := by
  by_cases h : m.isHalted = true
  · have hs : DPDA.step m = Except.ok (m, [], true) := by
      unfold DPDA.step
      simp [h]
    rw [hs]
    exact inv
  · have h' : m.isHalted = false := Bool.eq_false_iff.mpr h
    by_cases hpre : (DPDA.halt { m with stepCount := m.stepCount + 1 }).2.2 = true
    · have hs : DPDA.step m =
          Except.ok ((DPDA.halt { m with stepCount := m.stepCount + 1 }).1,
            (DPDA.halt { m with stepCount := m.stepCount + 1 }).2.1, true) := by
        unfold DPDA.step
        rw [if_neg (by simp [h'])]
        simp [hpre]
      rw [hs]
      exact fun _ => DPDA.halt_isHalted_of_fired _ hpre
    · have hpre' : (DPDA.halt { m with stepCount := m.stepCount + 1 }).2.2 = false :=
        Bool.eq_false_iff.mpr hpre
      cases hcmd : getCommandP m.transitionFunction (DPDA.activeCondition m) with
      | none =>
          rw [DPDA.step_eq_none m h' hpre' hcmd]
          simp [DPDA.resultConfig]
      | some command =>
          rw [DPDA.step_eq_of_cmd m command h' hpre' hcmd]
          by_cases hse : (DPDA.activeCondition m).stackElement = EPSILON_STRING
          · rw [if_pos hse]
            by_cases hpu : command.action = CommandAction.stackChange ∧
                command.argument ≠ EPSILON_STRING
            · rw [if_pos hpu]
              by_cases hco : m.stackAlphabet.isCompatibleWith command.argument = false
              · rw [if_pos hco]
                simpa [DPDA.resultConfig] using inv
              · rw [if_neg hco]
                exact DPDA.stepFinish_preserves _ _ _ _ _ inv
            · rw [if_neg hpu]
              exact DPDA.stepFinish_preserves _ _ _ _ _ inv
          · rw [if_neg hse]
            by_cases hpu : command.action = CommandAction.stackChange ∧
                command.argument ≠ EPSILON_STRING
            · rw [if_pos hpu]
              by_cases hco : m.stackAlphabet.isCompatibleWith command.argument = false
              · rw [if_pos hco]
                simpa [DPDA.resultConfig] using inv
              · rw [if_neg hco]
                exact DPDA.stepFinish_preserves _ _ _ _ _ inv
            · rw [if_neg hpu]
              exact DPDA.stepFinish_preserves _ _ _ _ _ inv

/-- Configurations of the `src/src/DFA.js` DFA reachable through the engine's
operations: construction, transition-function mutation, `reset`,
`setInputString`, `step` and `run`. -/
inductive DFA1.Reachable : DFA1 → Prop where
  | init : ∀ s : State, DFA1.Reachable (DFA1.mk0 s)
  | tfChange : ∀ (m : DFA1) (tf : List (ConditionD × CommandD)),
      DFA1.Reachable m → DFA1.Reachable { m with transitionFunction := tf }
  | resetR : ∀ m : DFA1, DFA1.Reachable m → DFA1.Reachable (DFA1.reset m).1
  | setInput : ∀ (m : DFA1) (input : List String),
      DFA1.Reachable m → DFA1.Reachable (DFA1.setInputString m input).1
  | stepR : ∀ m : DFA1, DFA1.Reachable m → DFA1.Reachable (DFA1.step m).1
  | runR : ∀ (m : DFA1) (n : Nat),
      DFA1.Reachable m → DFA1.Reachable (DFA1.run m n).1

/-- Configurations of the `src/unnamed/part_000` DFA reachable through the
engine's operations. -/
inductive DFA2.Reachable : DFA2 → Prop where
  | init : ∀ s : State, DFA2.Reachable (DFA2.mk0 s)
  | tfChange : ∀ (m : DFA2) (tf : List (ConditionD × CommandD)),
      DFA2.Reachable m → DFA2.Reachable { m with transitionFunction := tf }
  | resetR : ∀ m : DFA2, DFA2.Reachable m → DFA2.Reachable (DFA2.reset m).1
  | setInput : ∀ (m : DFA2) (input : List String),
      DFA2.Reachable m → DFA2.Reachable (DFA2.setInputString m input).1
  | stepR : ∀ m : DFA2, DFA2.Reachable m → DFA2.Reachable (DFA2.step m).1
  | runR : ∀ (m : DFA2) (n : Nat),
      DFA2.Reachable m → DFA2.Reachable (DFA2.run m n).1

/-- Configurations of the DPDA reachable through the engine's operations;
failing (throwing) operations do not complete and so do not contribute a
configuration (spec §7: a failed mutation must not partially apply). -/
inductive DPDA.Reachable : DPDA → Prop where
  | init : ∀ (s : State) (sa : Alphabet) (iss : String) (m : DPDA),
      DPDA.mk0 s sa iss = Except.ok m → DPDA.Reachable m
  | tfChange : ∀ (m : DPDA) (tf : List (ConditionP × CommandP)),
      DPDA.Reachable m → DPDA.Reachable { m with transitionFunction := tf }
  | resetR : ∀ (m m' : DPDA) (evs : List PEvent), DPDA.Reachable m →
      DPDA.reset m = Except.ok (m', evs) → DPDA.Reachable m'
  | setInput : ∀ (m : DPDA) (input : List String),
      DPDA.Reachable m → DPDA.Reachable (DPDA.setInputString m input).1
  | stepR : ∀ (m m' : DPDA) (evs : List PEvent) (r : Bool), DPDA.Reachable m →
      DPDA.step m = Except.ok (m', evs, r) → DPDA.Reachable m'
  | runR : ∀ (m : DPDA) (n : Nat) (m' : DPDA) (evs : List PEvent) (r : Bool),
      DPDA.Reachable m → DPDA.run m n = Except.ok (m', evs, r) → DPDA.Reachable m'

theorem DPDA.run_preserves (m : DPDA) (n : Nat)
    (inv : m.isAccepted = true → m.isHalted = true) :
    (DPDA.resultConfig (DPDA.run m n)).isAccepted = true →
    (DPDA.resultConfig (DPDA.run m n)).isHalted = true := by
  induction n generalizing m with
  | zero => simpa [DPDA.run, DPDA.resultConfig] using inv
  | succ k ih =>
      unfold DPDA.run
      cases hs : DPDA.step m with
      | error e =>
          have hp := DPDA.step_preserves m inv
          rw [hs] at hp
          simpa [DPDA.resultConfig] using hp
      | ok r =>
          obtain ⟨m2, evs, b⟩ := r
          have hp := DPDA.step_preserves m inv
          rw [hs] at hp
          simp [DPDA.resultConfig] at hp
          by_cases hb : b = true
          · simpa [hb, DPDA.resultConfig] using hp
          · have hrec := ih m2 hp
            cases hr2 : DPDA.run m2 k with
            | error e2 =>
                rw [hr2] at hrec
                simpa [hb, hr2, DPDA.resultConfig] using hrec
            | ok r2 =>
                obtain ⟨m3, evs3, b3⟩ := r2
                rw [hr2] at hrec
                simpa [hb, hr2, DPDA.resultConfig] using hrec

/-- C8: for every machine (both DFA variants and the DPDA), every
configuration reachable through the engine's operations satisfies the
invariant that the accepted flag implies the halted flag; the converse fails,
a reachable halted-and-rejected configuration existing. -/
theorem claimC8 :
    (∀ m : DFA1, DFA1.Reachable m → m.isAccepted = true → m.isHalted = true) ∧
    (∀ m : DFA2, DFA2.Reachable m → m.isAccepted = true → m.isHalted = true) ∧
    (∀ m : DPDA, DPDA.Reachable m → m.isAccepted = true → m.isHalted = true) ∧
    (∃ m : DFA1, DFA1.Reachable m ∧ m.isHalted = true ∧ m.isAccepted = false) := by
  refine ⟨?_, ?_, ?_, ?_⟩
  · intro m hr
    induction hr with
    | init s => simp [DFA1.mk0]
    | tfChange m tf _ ih => simpa using ih
    | resetR m _ _ih => simp [DFA1.reset]
    | setInput m input _ ih => simpa [DFA1.setInputString] using ih
    | stepR m _ ih => exact DFA1.step_preserves1 m ih
    | runR m n _ ih => exact DFA1.run_preserves1 m n ih
  · intro m hr
    induction hr with
    | init s => simp [DFA2.mk0]
    | tfChange m tf _ ih => simpa using ih
    | resetR m _ _ih => simp [DFA2.reset]
    | setInput m input _ ih => simpa [DFA2.setInputString] using ih
    | stepR m _ ih => exact DFA2.step_preserves2 m ih
    | runR m n _ ih => exact DFA2.run_preserves2 m n ih
  · intro m hr
    induction hr with
    | init s sa iss m hok =>
        unfold DPDA.mk0 at hok
        split_ifs at hok
        simp only [Except.ok.injEq] at hok
        rw [← hok]
        simp
    | tfChange m tf _ ih => simpa using ih
    | resetR m m' evs _ hok _ih =>
        unfold DPDA.reset at hok
        dsimp only at hok
        split_ifs at hok
        simp only [Except.ok.injEq, Prod.mk.injEq] at hok
        rw [← hok.1]
        simp
    | setInput m input _ ih => simpa [DPDA.setInputString] using ih
    | stepR m m' evs r _ hok ih =>
        have hp := DPDA.step_preserves m ih
        rw [hok] at hp
        simpa [DPDA.resultConfig] using hp
    | runR m n m' evs r _ hok ih =>
        have hp := DPDA.run_preserves m n ih
        rw [hok] at hp
        simpa [DPDA.resultConfig] using hp
  · refine ⟨(DFA1.step (DFA1.mk0 q0)).1,
      DFA1.Reachable.stepR _ (DFA1.Reachable.init q0), ?_, ?_⟩ <;> decide

/-- The DPDA configuration produced by constructing over the unrestricted
stack alphabet with accepting initial state `q1` and initial stack symbol
`Z`, used by the C8 witness. -/
def mC8p0 : DPDA :=
  { transitionFunction := [], initialState := q1, currentState := q1,
    stepCount := 0, isHalted := false, isAccepted := false, tape := [],
    pointerPosition := 0, stackAlphabet := UNRESTRICTED,
    initialStackSymbol := "Z", stack := ["Z"], acceptanceMode := none }

/-- The configuration reached by one `step` of `mC8p0`: halted and accepted
by state. -/
def mC8p1 : DPDA :=
  { mC8p0 with stepCount := 1, isHalted := true, isAccepted := true,
               acceptanceMode := some ACCEPT_BY_STATE }

theorem mC8p1_reachable : DPDA.Reachable mC8p1 :=
  DPDA.Reachable.stepR mC8p0 mC8p1
    [PEvent.accept q1 1 0, PEvent.halt q1 1 0] true
    (DPDA.Reachable.init q1 UNRESTRICTED "Z" mC8p0 rfl) rfl

/-- Witness for C8 at concrete reachable accepted machines of each kind; the
converse-failure conjunct of the claim theorem is hypothesis-free. -/
theorem claimC8_witness :
    (DFA1.step (DFA1.mk0 q1)).1.isHalted = true ∧
    (DFA2.step (DFA2.mk0 q1)).1.isHalted = true ∧
    mC8p1.isHalted = true :=
  ⟨claimC8.1 _ (DFA1.Reachable.stepR _ (DFA1.Reachable.init q1)) (by decide),
   claimC8.2.1 _ (DFA2.Reachable.stepR _ (DFA2.Reachable.init q1)) (by decide),
   claimC8.2.2.1 mC8p1 mC8p1_reachable rfl⟩
